import Mathlib

/-!
# Blob server (`registry/storage/blobserver.go`)

A shallow embedding of `blobServer.ServeBlob` and of the pieces of the Go
standard library it drives directly (`http.Header`, `time.Duration`, `fmt`),
followed by theorems about the redirect / direct-serve decision, the response
headers, error propagation and reader release.

Mutable state is passed explicitly.  An execution carries the response header
map and a trace: the list, oldest first, of every call `ServeBlob` makes on a
collaborator, on the header map or on `net/http`.  Collaborators (`Stat`,
`pathFn`, `RedirectURL`, `newFileReader`) are functions returning
`Except Error _` for Go's `(value, error)` pairs.

The response itself (header map, status, body) is followed through the two
`net/http` calls.  `http.Redirect` is written out; the string functions it
uses and the content responder `http.ServeContent` are taken as given, in
`NetHTTP`.
-/

set_option autoImplicit false

namespace storage

/-! ## Standard-library values used by `ServeBlob` -/

/-- Bytes allowed in a header field name (`textproto.validHeaderFieldByte`):
letters, digits and the token punctuation of RFC 7230. -/
def validHeaderFieldByte (c : Char) : Bool :=
  c.isAlphanum || "!#$%&*+-.^_|~".data.contains c || c == Char.ofNat 39 || c == Char.ofNat 96

/-- The rewriting loop of `textproto.canonicalMIMEHeaderKey`: upper-case the
first letter and every letter after a dash, lower-case the others. -/
def canonicalLoop : Bool → List Char → List Char
  | _, [] => []
  | upper, c :: cs =>
    let c1 := if upper && c.isLower then c.toUpper
              else if !upper && c.isUpper then c.toLower else c
    c1 :: canonicalLoop (c1 == '-') cs

/-- Canonical form of a header key (`textproto.CanonicalMIMEHeaderKey`); a key
holding a byte that is not a header field byte is returned unchanged. -/
def CanonicalMIMEHeaderKey (s : String) : String :=
  if s.data.all validHeaderFieldByte then String.mk (canonicalLoop true s.data) else s

/-- Go's `http.Header`, a `map[string][]string`, as an association list in
which the first entry of a key is the one that counts. -/
abbrev Header := List (String × List String)

/-- Map indexing `h[k]`: the values stored under `k`, none when absent. -/
def Header.values (h : Header) (k : String) : List String :=
  (List.lookup k h).getD []

/-- `Header.Get`: first value under the canonical key, `""` when there is none. -/
def Header.Get (h : Header) (key : String) : String :=
  match h.values (CanonicalMIMEHeaderKey key) with
  | [] => ""
  | v :: _ => v

/-- `Header.Set`: the entry of the canonical key becomes the single value. -/
def Header.Set (h : Header) (key value : String) : Header :=
  (CanonicalMIMEHeaderKey key, [value]) ::
    List.filter (fun p => p.1 != CanonicalMIMEHeaderKey key) h

/-- The presence test `_, ok := h[k]` on the map, with `k` taken as it is. -/
def Header.has (h : Header) (k : String) : Bool :=
  (List.lookup k h).isSome

/-- Go's `time.Duration`: a count of nanoseconds (an `int64`). -/
abbrev Duration := Int

def Nanosecond : Duration := 1
def Microsecond : Duration := 1000 * Nanosecond
def Millisecond : Duration := 1000 * Microsecond
def Second : Duration := 1000 * Millisecond
def Minute : Duration := 60 * Second
def Hour : Duration := 60 * Minute

/-- `Duration.Seconds`: `float64(d / Second) + float64(d % Second) / 1e9`, with
the float64 result held as the exact rational.  The two agree whenever the
whole seconds are below `2^53` and there is no sub-second part, which is the
case for `blobCacheControlMaxAge`. -/
def Duration.Seconds (d : Duration) : ℚ :=
  (Int.tdiv d Second : ℚ) + (Int.tmod d Second : ℚ) / 1000000000

/-- Nearest integer, ties to the even one: the rounding of the verb `%.f`. -/
def roundHalfEven (x : ℚ) : Int :=
  let f : Int := ⌊x⌋
  let d : ℚ := x - f
  if d < 1 / 2 then f else if 1 / 2 < d then f + 1 else if f % 2 = 0 then f else f + 1

/-- `fmt.Sprintf("%.f", x)`: fixed notation with no digits after the point
(and so no point, and never an exponent). -/
def fmtFloat0 (x : ℚ) : String :=
  let n := roundHalfEven x
  if x < 0 ∧ n = 0 then "-0" else toString n

/-- `fmt.Sprint` of an `int64`: its decimal rendering. -/
def fmtSprint (n : Int) : String := toString n

/-- Go's `time.Time`; `time.Time{}` is the zero value. -/
structure Time where
  wall : Nat
  ext : Int
  deriving DecidableEq, Repr

/-- The zero value `time.Time{}`. -/
def Time.zeroValue : Time := ⟨0, 0⟩

/-- `http.StatusTemporaryRedirect`. -/
def StatusTemporaryRedirect : Nat := 307

/-! ## Data model -/

/-- `digest.Digest` is a string type; its `String()` is the string itself. -/
abbrev Digest := String

/-- `distribution.Descriptor`, with the fields `ServeBlob` reads. -/
structure Descriptor where
  MediaType : String
  Size : Int
  Digest : Digest
  deriving DecidableEq, Repr

/-- Go `error` values: the registry's blob-unknown error and any other. -/
inductive Error where
  | ErrBlobUnknown
  | other (msg : String)
  deriving DecidableEq, Repr

deriving instance DecidableEq for Except

/-- `context.Context`, an opaque token handed on to the collaborators. -/
structure Context where
  tag : Nat
  deriving DecidableEq, Repr

/-- The inbound `*http.Request`; `ServeBlob` only hands it on. -/
structure Request where
  Method : String
  URL : String
  Header : Header
  deriving DecidableEq, Repr

/-- The reader returned by `newFileReader`, an opaque handle. -/
structure FileReader where
  handle : Nat
  deriving DecidableEq, Repr

/-- The response behind an `http.ResponseWriter`: the header map, the status
written by `WriteHeader` (`none` while none is written) and the body bytes
written so far. -/
structure Response where
  header : Header
  status : Option Nat
  body : String
  deriving DecidableEq, Repr

/-- What is taken as given of `net/http`: the content responder
`http.ServeContent(w, r, name, modtime, content)` as a function on the
response, and the string functions used by `http.Redirect`: `resolveURL` is
its opening block (a target without scheme and host is made absolute against
the request path and cleaned, any other target is returned as it is),
`hexEscapeNonASCII` and `htmlEscape` are the functions of those names and
`StatusText` is `http.StatusText`. -/
structure NetHTTP where
  ServeContent : Response → Request → String → Time → FileReader → Response
  resolveURL : Request → String → String
  hexEscapeNonASCII : String → String
  htmlEscape : String → String
  StatusText : Nat → String

/-- `w.WriteHeader(code)`: the first status written is the one that counts. -/
def Response.WriteHeader (w : Response) (code : Nat) : Response :=
  ⟨w.header, some (w.status.getD code), w.body⟩

/-- `http.Redirect(w, r, url, code)`: sets `Location`; for a GET or HEAD
request on a response without a `Content-Type` entry sets `Content-Type` to
`text/html; charset=utf-8`; writes the status; and for such a GET request
writes a short HTML link as the body (`fmt.Fprintln`, hence the second
newline). -/
def http.Redirect (lib : NetHTTP) (w : Response) (r : Request) (url : String)
    (code : Nat) : Response :=
  let url := lib.resolveURL r url
  let hadCT := w.header.has "Content-Type"
  let h := w.header.Set "Location" (lib.hexEscapeNonASCII url)
  let h := if !hadCT && (r.Method == "GET" || r.Method == "HEAD") then
    h.Set "Content-Type" "text/html; charset=utf-8" else h
  let w := Response.WriteHeader ⟨h, w.status, w.body⟩ code
  if !hadCT && r.Method == "GET" then
    ⟨w.header, w.status,
      w.body ++ ("<a href=\"" ++ lib.htmlEscape url ++ "\">" ++ lib.StatusText code ++
        "</a>.\n") ++ "\n"⟩
  else w

/-- The part of `driver.StorageDriver` that `ServeBlob` calls itself. -/
structure StorageDriver where
  RedirectURL : Request → String → Except Error String

/-- `distribution.BlobStatter`. -/
structure BlobStatter where
  Stat : Context → Digest → Except Error Descriptor

/-- The `blobServer` struct. -/
structure blobServer where
  driver : StorageDriver
  statter : BlobStatter
  pathFn : Digest → Except Error String
  redirect : Bool

/-- `blobCacheControlMaxAge = 365 * 24 * time.Hour`. -/
def blobCacheControlMaxAge : Duration := 365 * 24 * Hour

/-- One call made by `ServeBlob`.  `Redirect` and `ServeContent` carry the
response header map as it stands when `net/http` takes over. -/
inductive Event where
  | Stat (ctx : Context) (dgst : Digest)
  | pathFn (dgst : Digest)
  | RedirectURL (r : Request) (path : String)
  | newFileReader (ctx : Context) (path : String) (size : Int)
  | HeaderSet (key value : String)
  | Redirect (h : Header) (r : Request) (url : String) (code : Nat)
  | ServeContent (h : Header) (r : Request) (name : String) (modtime : Time)
      (content : FileReader)
  | Close (br : FileReader)
  deriving DecidableEq, Repr

/-- Events through which something is emitted on the response: a header
write, or a `net/http` call that writes status and body. -/
def Event.emits : Event → Bool
  | .HeaderSet _ _ => true
  | .Redirect _ _ _ _ => true
  | .ServeContent _ _ _ _ _ => true
  | _ => false

/-- Events that release a reader. -/
def Event.isClose : Event → Bool
  | .Close _ => true
  | _ => false

/-- Events that hand content to the responder `http.ServeContent`. -/
def Event.isServeContent : Event → Bool
  | .ServeContent _ _ _ _ _ => true
  | _ => false

/-- The state threaded through an execution: the response header map
`w.Header()` and the calls made so far. -/
structure Exec where
  header : Header
  trace : List Event
  deriving DecidableEq, Repr

/-- Record a call. -/
def Exec.call (s : Exec) (e : Event) : Exec :=
  ⟨s.header, s.trace ++ [e]⟩

/-- The statement `w.Header().Set(key, value)`. -/
def Exec.headerSet (s : Exec) (key value : String) : Exec :=
  ⟨s.header.Set key value, s.trace ++ [Event.HeaderSet key value]⟩

/-- What an execution of `ServeBlob` comes to.  `err` is the returned error
(`none` for `nil`).  `header` is the response header map as the statements of
`ServeBlob` itself leave it, which is the map handed to `net/http` where
`http.Redirect` or `http.ServeContent` is called.  `trace` is the list of
calls.  `resp` is the response as it stands when `ServeBlob` returns, with
what `net/http` has written to it. -/
structure Outcome where
  err : Option Error
  header : Header
  trace : List Event
  resp : Response
  deriving DecidableEq, Repr

/-- The type of `newFileReader(ctx, driver, path, size)`, a function of the
package that `ServeBlob` calls; it is a parameter of the embedding. -/
abbrev NewFileReader := Context → StorageDriver → String → Int → Except Error FileReader

/-! ## `ServeBlob` -/

/-- Lines 56 to 71 of `ServeBlob`: the header statements of the direct-serve
path. -/
def setHeaders (s : Exec) (desc : Descriptor) : Exec :=
  let s := s.headerSet "ETag" ("\"" ++ desc.Digest ++ "\"")
  let s := s.headerSet "Cache-Control"
    ("max-age=" ++ fmtFloat0 (Duration.Seconds blobCacheControlMaxAge))
  let s := if s.header.Get "Docker-Content-Digest" = "" then
    s.headerSet "Docker-Content-Digest" desc.Digest else s
  let s := if s.header.Get "Content-Type" = "" then
    s.headerSet "Content-Type" desc.MediaType else s
  let s := if s.header.Get "Content-Length" = "" then
    s.headerSet "Content-Length" (fmtSprint desc.Size) else s
  s

/-- Lines 50 to 74 of `ServeBlob`: the direct-serve path reached when the
redirect block falls through. -/
def serveDirect (lib : NetHTTP) (newFileReader : NewFileReader) (bs : blobServer)
    (ctx : Context) (s : Exec) (r : Request) (desc : Descriptor) (path : String) : Outcome :=
  let s := s.call (Event.newFileReader ctx path desc.Size)
  match newFileReader ctx bs.driver path desc.Size with
  | .error err => ⟨some err, s.header, s.trace, ⟨s.header, none, ""⟩⟩
  | .ok br =>
    -- defer br.Close()
    let s := setHeaders s desc
    let s := s.call (Event.ServeContent s.header r desc.Digest Time.zeroValue br)
    let resp := lib.ServeContent ⟨s.header, none, ""⟩ r desc.Digest Time.zeroValue br
    -- the deferred br.Close() runs as the function returns
    let s := s.call (Event.Close br)
    ⟨none, s.header, s.trace, resp⟩

/-- `blobServer.ServeBlob(ctx, w, r, dgst)`; `w` is the response header map
as the caller left it, on a response to which nothing has been written yet. -/
def ServeBlob (lib : NetHTTP) (newFileReader : NewFileReader) (bs : blobServer)
    (ctx : Context) (w : Header) (r : Request) (dgst : Digest) : Outcome :=
  let s : Exec := ⟨w, []⟩
  let s := s.call (Event.Stat ctx dgst)
  match bs.statter.Stat ctx dgst with
  | .error err => ⟨some err, s.header, s.trace, ⟨s.header, none, ""⟩⟩
  | .ok desc =>
    let s := s.call (Event.pathFn desc.Digest)
    match bs.pathFn desc.Digest with
    | .error err => ⟨some err, s.header, s.trace, ⟨s.header, none, ""⟩⟩
    | .ok path =>
      if bs.redirect then
        let s := s.call (Event.RedirectURL r path)
        match bs.driver.RedirectURL r path with
        | .error err => ⟨some err, s.header, s.trace, ⟨s.header, none, ""⟩⟩
        | .ok redirectURL =>
          if redirectURL ≠ "" then
            let s := s.call (Event.Redirect s.header r redirectURL StatusTemporaryRedirect)
            let resp := http.Redirect lib ⟨s.header, none, ""⟩ r redirectURL
              StatusTemporaryRedirect
            ⟨none, s.header, s.trace, resp⟩
          else
            serveDirect lib newFileReader bs ctx s r desc path
      else
        serveDirect lib newFileReader bs ctx s r desc path

/-! ## Sample collaborators and inputs -/

def sampleDesc : Descriptor := ⟨"application/octet-stream", 1024, "sha256:abc"⟩

def sampleStatter : BlobStatter :=
  ⟨fun _ d => if d = "sha256:abc" then .ok sampleDesc else .error Error.ErrBlobUnknown⟩

def samplePathFn : Digest → Except Error String :=
  fun d => if d = "" then .error (Error.other "invalid digest") else .ok ("/blobs/" ++ d ++ "/data")

def sampleReader : NewFileReader := fun _ _ _ _ => .ok ⟨7⟩

def sampleRequest : Request := ⟨"GET", "/v2/repo/blobs/sha256:abc", []⟩

def sampleCtx : Context := ⟨0⟩

/-- The 1024 bytes of the sample blob. -/
def sampleBlob : String := String.mk (List.replicate 1024 (Char.ofNat 120))

/-- `http.ServeContent` as it answers the samples: a request without
conditional or range headers, over the sample blob, on a response whose
`Content-Type` is set.  It sets `Accept-Ranges`, sets `Content-Length` to the
size it computes unless a `Content-Encoding` is set, writes status 200 and,
unless the method is HEAD, the bytes. -/
def sampleServeContent (w : Response) (r : Request) (_name : String) (_modtime : Time)
    (_content : FileReader) : Response :=
  let h := w.header.Set "Accept-Ranges" "bytes"
  let h := if h.Get "Content-Encoding" = "" then h.Set "Content-Length" "1024" else h
  let w := Response.WriteHeader ⟨h, w.status, w.body⟩ 200
  if r.Method = "HEAD" then w else ⟨w.header, w.status, w.body ++ sampleBlob⟩

/-- The given part of `net/http` for the samples: their redirect targets
carry a scheme, are ASCII and hold no character that HTML escapes, so the
three string functions return them as they are; the status text is that of
307. -/
def sampleHTTP : NetHTTP :=
  ⟨sampleServeContent, fun _ u => u, fun u => u, fun u => u,
    fun c => if c = 307 then "Temporary Redirect" else ""⟩

/-- A server whose driver declines to redirect and whose redirect flag is off. -/
def directServer : blobServer :=
  ⟨⟨fun _ _ => .ok ""⟩, sampleStatter, samplePathFn, false⟩

/-- A server whose redirect flag is on and whose driver signs a URL. -/
def redirectServer : blobServer :=
  ⟨⟨fun _ p => .ok ("https://backend.example" ++ p)⟩, sampleStatter, samplePathFn, true⟩

/-- A server whose driver fails while building the redirect URL. -/
def brokenRedirectServer : blobServer :=
  ⟨⟨fun _ _ => .error (Error.other "driver down")⟩, sampleStatter, samplePathFn, true⟩

/-- A statter answering every digest with the descriptor of `sha256:abc`. -/
def aliasServer : blobServer :=
  ⟨⟨fun _ _ => .ok ""⟩, ⟨fun _ _ => .ok sampleDesc⟩, samplePathFn, true⟩

/-- A reader open that always fails. -/
def failingReader : NewFileReader := fun _ _ _ _ => .error (Error.other "open failed")

/-- A response on which the caller has already set all five headers. -/
def presetHeader : Header :=
  [("Etag", ["\"caller\""]), ("Cache-Control", ["no-store"]),
   ("Docker-Content-Digest", ["sha256:caller"]), ("Content-Type", ["text/plain"]),
   ("Content-Length", ["5"])]

/-! ## Closed forms used in the statements -/

/-- The calls made before the reader is opened, when `Stat` and `pathFn`
succeed and no redirect is issued. -/
def preamble (bs : blobServer) (ctx : Context) (r : Request) (dgst : Digest)
    (desc : Descriptor) (path : String) : List Event :=
  [Event.Stat ctx dgst, Event.pathFn desc.Digest] ++
    if bs.redirect then [Event.RedirectURL r path] else []

/-- The header map after the header statements, starting from `w`. -/
def directHeader (w : Header) (desc : Descriptor) : Header :=
  (setHeaders ⟨w, []⟩ desc).header

/-- The header writes made by the header statements, starting from `w`. -/
def directSets (w : Header) (desc : Descriptor) : List Event :=
  (setHeaders ⟨w, []⟩ desc).trace

/-! ## The header map -/

theorem lookup_filter_ne (h : Header) (c k : String) (hk : k ≠ c) :
    List.lookup k (List.filter (fun p => p.1 != c) h) = List.lookup k h := by
  induction h with
  | nil => rfl
  | cons p t ih =>
    obtain ⟨a, b⟩ := p
    by_cases hac : a = c
    · subst hac
      have hka : (k == a) = false := by simpa using hk
      simp [List.filter, List.lookup, hka, ih]
    · have hf : (a != c) = true := by simpa using hac
      by_cases hka : k = a
      · subst hka
        simp [List.filter, hf, List.lookup]
      · have hka2 : (k == a) = false := by simpa using hka
        simp [List.filter, hf, List.lookup, hka2, ih]

theorem values_Set (h : Header) (key value k : String) :
    (h.Set key value).values k =
      if k = CanonicalMIMEHeaderKey key then [value] else h.values k := by
  unfold Header.Set Header.values
  by_cases hk : k = CanonicalMIMEHeaderKey key
  · subst hk
    simp [List.lookup]
  · have hk2 : (k == CanonicalMIMEHeaderKey key) = false := by simpa using hk
    simp [List.lookup, hk2, hk, lookup_filter_ne h _ k hk]

theorem Get_Set (h : Header) (key value k : String) :
    (h.Set key value).Get k =
      if CanonicalMIMEHeaderKey k = CanonicalMIMEHeaderKey key then value else h.Get k := by
  unfold Header.Get
  rw [values_Set]
  split_ifs <;> rfl

theorem canonical_ETag : CanonicalMIMEHeaderKey "ETag" = "Etag" := by decide

theorem canonical_CacheControl :
    CanonicalMIMEHeaderKey "Cache-Control" = "Cache-Control" := by decide

theorem canonical_DockerContentDigest :
    CanonicalMIMEHeaderKey "Docker-Content-Digest" = "Docker-Content-Digest" := by decide

theorem canonical_ContentType :
    CanonicalMIMEHeaderKey "Content-Type" = "Content-Type" := by decide

theorem canonical_ContentLength :
    CanonicalMIMEHeaderKey "Content-Length" = "Content-Length" := by decide

/-! ## The cache lifetime -/

theorem blobCacheControlMaxAge_seconds :
    Duration.Seconds blobCacheControlMaxAge = 31536000 := by
  have h1 : Int.tdiv blobCacheControlMaxAge Second = 31536000 := by decide
  have h2 : Int.tmod blobCacheControlMaxAge Second = 0 := by decide
  unfold Duration.Seconds
  rw [h1, h2]
  norm_num

theorem roundHalfEven_intCast (n : Int) : roundHalfEven (n : ℚ) = n := by
  unfold roundHalfEven
  simp

theorem maxAge_string :
    "max-age=" ++ fmtFloat0 (Duration.Seconds blobCacheControlMaxAge) = "max-age=31536000" := by
  have hr : roundHalfEven (31536000 : ℚ) = 31536000 := by
    have := roundHalfEven_intCast 31536000
    simpa using this
  rw [blobCacheControlMaxAge_seconds]
  unfold fmtFloat0
  simp only [hr]
  have hnot : ¬ ((31536000 : ℚ) < 0 ∧ (31536000 : Int) = 0) := by
    intro h
    exact absurd h.2 (by decide)
  rw [if_neg hnot]
  decide

/-! ## The header statements -/

theorem setHeaders_eq (s : Exec) (desc : Descriptor) :
    setHeaders s desc = ⟨directHeader s.header desc, s.trace ++ directSets s.header desc⟩ := by
  unfold directHeader directSets setHeaders
  simp only [Exec.headerSet]
  split_ifs <;> simp

theorem directHeader_ETag (w : Header) (desc : Descriptor) :
    (directHeader w desc).Get "ETag" = "\"" ++ desc.Digest ++ "\"" := by
  unfold directHeader setHeaders
  simp only [Exec.headerSet]
  split_ifs <;>
    simp [Get_Set, canonical_ETag, canonical_CacheControl, canonical_DockerContentDigest,
      canonical_ContentType, canonical_ContentLength]

theorem directHeader_CacheControl (w : Header) (desc : Descriptor) :
    (directHeader w desc).Get "Cache-Control" = "max-age=31536000" := by
  unfold directHeader setHeaders
  simp only [Exec.headerSet, maxAge_string]
  split_ifs <;>
    simp [Get_Set, canonical_ETag, canonical_CacheControl, canonical_DockerContentDigest,
      canonical_ContentType, canonical_ContentLength]

/-- The entry of a guarded header that the caller had set to a non-empty
value is still the caller's after the header statements. -/
theorem directHeader_values_DockerContentDigest (w : Header) (desc : Descriptor)
    (h : w.Get "Docker-Content-Digest" ≠ "") :
    (directHeader w desc).values "Docker-Content-Digest" = w.values "Docker-Content-Digest" := by
  unfold directHeader setHeaders
  simp only [Exec.headerSet, Get_Set, canonical_ETag, canonical_CacheControl,
    canonical_DockerContentDigest, canonical_ContentType, canonical_ContentLength]
  split_ifs <;> simp_all [Get_Set, values_Set, canonical_ETag, canonical_CacheControl,
    canonical_DockerContentDigest, canonical_ContentType, canonical_ContentLength]

theorem directHeader_values_ContentType (w : Header) (desc : Descriptor)
    (h : w.Get "Content-Type" ≠ "") :
    (directHeader w desc).values "Content-Type" = w.values "Content-Type" := by
  unfold directHeader setHeaders
  simp only [Exec.headerSet, Get_Set, canonical_ETag, canonical_CacheControl,
    canonical_DockerContentDigest, canonical_ContentType, canonical_ContentLength]
  split_ifs <;> simp_all [Get_Set, values_Set, canonical_ETag, canonical_CacheControl,
    canonical_DockerContentDigest, canonical_ContentType, canonical_ContentLength]

theorem directHeader_DockerContentDigest (w : Header) (desc : Descriptor) :
    (directHeader w desc).Get "Docker-Content-Digest" =
      if w.Get "Docker-Content-Digest" = "" then desc.Digest
      else w.Get "Docker-Content-Digest" := by
  unfold directHeader setHeaders
  simp only [Exec.headerSet, Get_Set, canonical_ETag, canonical_CacheControl,
    canonical_DockerContentDigest, canonical_ContentType, canonical_ContentLength]
  split_ifs <;> simp_all [Get_Set, values_Set, canonical_ETag, canonical_CacheControl,
    canonical_DockerContentDigest, canonical_ContentType, canonical_ContentLength]

theorem directHeader_ContentType (w : Header) (desc : Descriptor) :
    (directHeader w desc).Get "Content-Type" =
      if w.Get "Content-Type" = "" then desc.MediaType else w.Get "Content-Type" := by
  unfold directHeader setHeaders
  simp only [Exec.headerSet, Get_Set, canonical_ETag, canonical_CacheControl,
    canonical_DockerContentDigest, canonical_ContentType, canonical_ContentLength]
  split_ifs <;> simp_all [Get_Set, values_Set, canonical_ETag, canonical_CacheControl,
    canonical_DockerContentDigest, canonical_ContentType, canonical_ContentLength]

theorem directHeader_ContentLength (w : Header) (desc : Descriptor) :
    (directHeader w desc).Get "Content-Length" =
      if w.Get "Content-Length" = "" then fmtSprint desc.Size else w.Get "Content-Length" := by
  unfold directHeader setHeaders
  simp only [Exec.headerSet, Get_Set, canonical_ETag, canonical_CacheControl,
    canonical_DockerContentDigest, canonical_ContentType, canonical_ContentLength]
  split_ifs <;> simp_all [Get_Set, values_Set, canonical_ETag, canonical_CacheControl,
    canonical_DockerContentDigest, canonical_ContentType, canonical_ContentLength]

theorem directSets_eq (w : Header) (desc : Descriptor) :
    directSets w desc =
      [Event.HeaderSet "ETag" ("\"" ++ desc.Digest ++ "\""),
        Event.HeaderSet "Cache-Control" "max-age=31536000"] ++
      (if w.Get "Docker-Content-Digest" = "" then
        [Event.HeaderSet "Docker-Content-Digest" desc.Digest] else []) ++
      (if w.Get "Content-Type" = "" then
        [Event.HeaderSet "Content-Type" desc.MediaType] else []) ++
      (if w.Get "Content-Length" = "" then
        [Event.HeaderSet "Content-Length" (fmtSprint desc.Size)] else []) := by
  unfold directSets setHeaders
  simp only [Exec.headerSet, Get_Set, canonical_ETag, canonical_CacheControl,
    canonical_DockerContentDigest, canonical_ContentType, canonical_ContentLength,
    maxAge_string]
  split_ifs <;> simp_all [Get_Set, canonical_ETag, canonical_CacheControl,
    canonical_DockerContentDigest, canonical_ContentType, canonical_ContentLength]

theorem mem_directSets (w : Header) (desc : Descriptor) (ev : Event)
    (hev : ev ∈ directSets w desc) :
    ev = Event.HeaderSet "ETag" ("\"" ++ desc.Digest ++ "\"") ∨
    ev = Event.HeaderSet "Cache-Control" "max-age=31536000" ∨
    (ev = Event.HeaderSet "Docker-Content-Digest" desc.Digest ∧
      w.Get "Docker-Content-Digest" = "") ∨
    (ev = Event.HeaderSet "Content-Type" desc.MediaType ∧ w.Get "Content-Type" = "") ∨
    (ev = Event.HeaderSet "Content-Length" (fmtSprint desc.Size) ∧
      w.Get "Content-Length" = "") := by
  rw [directSets_eq] at hev
  simp only [List.mem_append, List.mem_cons, List.mem_singleton, List.not_mem_nil,
    or_false] at hev
  rcases hev with (((h | h) | h) | h) | h
  · exact Or.inl h
  · exact Or.inr (Or.inl h)
  · split_ifs at h with hc
    · simp at h
      exact Or.inr (Or.inr (Or.inl ⟨h, hc⟩))
    · simp at h
  · split_ifs at h with hc
    · simp at h
      exact Or.inr (Or.inr (Or.inr (Or.inl ⟨h, hc⟩)))
    · simp at h
  · split_ifs at h with hc
    · simp at h
      exact Or.inr (Or.inr (Or.inr (Or.inr ⟨h, hc⟩)))
    · simp at h

theorem directSets_props (w : Header) (desc : Descriptor) :
    ∀ ev ∈ directSets w desc,
      ev.isClose = false ∧ ev.isServeContent = false ∧
        (∀ c p s, ev ≠ Event.newFileReader c p s) ∧ (∀ d, ev ≠ Event.pathFn d) ∧
        (∀ q p, ev ≠ Event.RedirectURL q p) ∧ (∀ h q u c, ev ≠ Event.Redirect h q u c) := by
  intro ev hev
  rcases mem_directSets w desc ev hev with h | h | ⟨h, _⟩ | ⟨h, _⟩ | ⟨h, _⟩ <;> subst h <;>
    simp [Event.isClose, Event.isServeContent]

/-! ## `http.Redirect` -/

theorem canonical_Location : CanonicalMIMEHeaderKey "Location" = "Location" := by decide

theorem string_append_ne_empty (a b : String) (ha : a ≠ "") : a ++ b ≠ "" := by
  intro h
  have hl := congrArg String.length h
  simp only [String.length_append] at hl
  have hz : a.length = 0 := by
    have h0 : ("" : String).length = 0 := rfl
    omega
  apply ha
  cases a with
  | mk l =>
    have hl0 : l = [] := List.length_eq_zero.mp hz
    rw [hl0]

section redirect

variable (lib : NetHTTP) (w : Header) (r : Request) (u : String) (code : Nat)

theorem Redirect_status : (http.Redirect lib ⟨w, none, ""⟩ r u code).status = some code := by
  unfold http.Redirect Response.WriteHeader
  simp only []
  split_ifs <;> rfl

theorem Redirect_Location :
    (http.Redirect lib ⟨w, none, ""⟩ r u code).header.Get "Location" =
      lib.hexEscapeNonASCII (lib.resolveURL r u) := by
  unfold http.Redirect Response.WriteHeader
  simp only []
  split_ifs <;> simp [Get_Set, canonical_Location, canonical_ContentType]

theorem Redirect_values_other :
    ∀ k, k ≠ "Location" → k ≠ "Content-Type" →
      (http.Redirect lib ⟨w, none, ""⟩ r u code).header.values k = w.values k := by
  intro k h1 h2
  unfold http.Redirect Response.WriteHeader
  simp only []
  split_ifs <;> simp [values_Set, canonical_Location, canonical_ContentType, h1, h2]

theorem Redirect_ContentType_kept :
    w.has "Content-Type" = true ∨ (r.Method ≠ "GET" ∧ r.Method ≠ "HEAD") →
      (http.Redirect lib ⟨w, none, ""⟩ r u code).header.values "Content-Type" =
        w.values "Content-Type" := by
  intro h
  unfold http.Redirect Response.WriteHeader
  simp only []
  rcases h with h | ⟨h1, h2⟩
  · simp [values_Set, canonical_Location, h]
  · simp [values_Set, canonical_Location, h1, h2]

theorem Redirect_ContentType_set :
    w.has "Content-Type" = false → r.Method = "GET" ∨ r.Method = "HEAD" →
      (http.Redirect lib ⟨w, none, ""⟩ r u code).header.Get "Content-Type" =
        "text/html; charset=utf-8" := by
  intro h hm
  unfold http.Redirect Response.WriteHeader
  simp only []
  rcases hm with hm | hm <;> simp [Get_Set, canonical_ContentType, h, hm]

theorem Redirect_body_link :
    w.has "Content-Type" = false → r.Method = "GET" →
      (http.Redirect lib ⟨w, none, ""⟩ r u code).body =
          "<a href=\"" ++ lib.htmlEscape (lib.resolveURL r u) ++ "\">" ++ lib.StatusText code ++
            "</a>.\n" ++ "\n" ∧
        (http.Redirect lib ⟨w, none, ""⟩ r u code).body ≠ "" := by
  intro h hm
  have hb : (http.Redirect lib ⟨w, none, ""⟩ r u code).body =
      "<a href=\"" ++ lib.htmlEscape (lib.resolveURL r u) ++ "\">" ++ lib.StatusText code ++
        "</a>.\n" ++ "\n" := by
    unfold http.Redirect Response.WriteHeader
    simp [h, hm]
  refine ⟨hb, ?_⟩
  rw [hb]
  simp only [String.append_assoc]
  exact string_append_ne_empty _ _ (by decide)

theorem Redirect_body_none :
    w.has "Content-Type" = true ∨ r.Method ≠ "GET" →
      (http.Redirect lib ⟨w, none, ""⟩ r u code).body = "" := by
  intro h
  unfold http.Redirect Response.WriteHeader
  simp only []
  rcases h with h | h <;> simp [h]

end redirect

/-! ## The paths through `ServeBlob` -/

section paths

variable (lib : NetHTTP) (nfr : NewFileReader) (bs : blobServer) (ctx : Context) (w : Header)
  (r : Request) (dgst : Digest)

theorem ServeBlob_of_stat_error (e : Error) (hstat : bs.statter.Stat ctx dgst = .error e) :
    ServeBlob lib nfr bs ctx w r dgst = ⟨some e, w, [Event.Stat ctx dgst],
        ⟨w, none, ""⟩⟩ := by
  simp [ServeBlob, Exec.call, hstat]

theorem ServeBlob_of_path_error (desc : Descriptor) (e : Error)
    (hstat : bs.statter.Stat ctx dgst = .ok desc) (hpath : bs.pathFn desc.Digest = .error e) :
    ServeBlob lib nfr bs ctx w r dgst =
      ⟨some e, w, [Event.Stat ctx dgst, Event.pathFn desc.Digest],
        ⟨w, none, ""⟩⟩ := by
  simp [ServeBlob, Exec.call, hstat, hpath]

theorem ServeBlob_of_redirect_error (desc : Descriptor) (path : String) (e : Error)
    (hstat : bs.statter.Stat ctx dgst = .ok desc) (hpath : bs.pathFn desc.Digest = .ok path)
    (hflag : bs.redirect = true) (hurl : bs.driver.RedirectURL r path = .error e) :
    ServeBlob lib nfr bs ctx w r dgst =
      ⟨some e, w, [Event.Stat ctx dgst, Event.pathFn desc.Digest, Event.RedirectURL r path],
        ⟨w, none, ""⟩⟩ := by
  simp [ServeBlob, Exec.call, hstat, hpath, hflag, hurl]

theorem ServeBlob_of_redirect_url (desc : Descriptor) (path u : String)
    (hstat : bs.statter.Stat ctx dgst = .ok desc) (hpath : bs.pathFn desc.Digest = .ok path)
    (hflag : bs.redirect = true) (hurl : bs.driver.RedirectURL r path = .ok u)
    (hne : u ≠ "") :
    ServeBlob lib nfr bs ctx w r dgst =
      ⟨none, w, [Event.Stat ctx dgst, Event.pathFn desc.Digest, Event.RedirectURL r path,
        Event.Redirect w r u StatusTemporaryRedirect],
        http.Redirect lib ⟨w, none, ""⟩ r u StatusTemporaryRedirect⟩ := by
  simp [ServeBlob, Exec.call, hstat, hpath, hflag, hurl, hne]

theorem ServeBlob_falls_through (desc : Descriptor) (path : String)
    (hstat : bs.statter.Stat ctx dgst = .ok desc) (hpath : bs.pathFn desc.Digest = .ok path)
    (hdecl : bs.redirect = false ∨ bs.driver.RedirectURL r path = .ok "") :
    ServeBlob lib nfr bs ctx w r dgst =
      serveDirect lib nfr bs ctx ⟨w, preamble bs ctx r dgst desc path⟩ r desc path := by
  cases hflag : bs.redirect with
  | false => simp [ServeBlob, Exec.call, hstat, hpath, hflag, preamble]
  | true =>
    rcases hdecl with h | h
    · rw [hflag] at h
      cases h
    · simp [ServeBlob, Exec.call, hstat, hpath, hflag, h, preamble]

theorem ServeBlob_of_reader_error (desc : Descriptor) (path : String) (e : Error)
    (hstat : bs.statter.Stat ctx dgst = .ok desc) (hpath : bs.pathFn desc.Digest = .ok path)
    (hdecl : bs.redirect = false ∨ bs.driver.RedirectURL r path = .ok "")
    (hopen : nfr ctx bs.driver path desc.Size = .error e) :
    ServeBlob lib nfr bs ctx w r dgst =
      ⟨some e, w, preamble bs ctx r dgst desc path ++
        [Event.newFileReader ctx path desc.Size],
        ⟨w, none, ""⟩⟩ := by
  rw [ServeBlob_falls_through lib nfr bs ctx w r dgst desc path hstat hpath hdecl]
  simp [serveDirect, Exec.call, hopen]

theorem ServeBlob_of_direct (desc : Descriptor) (path : String) (br : FileReader)
    (hstat : bs.statter.Stat ctx dgst = .ok desc) (hpath : bs.pathFn desc.Digest = .ok path)
    (hdecl : bs.redirect = false ∨ bs.driver.RedirectURL r path = .ok "")
    (hopen : nfr ctx bs.driver path desc.Size = .ok br) :
    ServeBlob lib nfr bs ctx w r dgst =
      ⟨none, directHeader w desc,
        preamble bs ctx r dgst desc path ++ [Event.newFileReader ctx path desc.Size] ++
          directSets w desc ++
          [Event.ServeContent (directHeader w desc) r desc.Digest Time.zeroValue br,
            Event.Close br],
        lib.ServeContent ⟨directHeader w desc, none, ""⟩ r desc.Digest Time.zeroValue br⟩ := by
  rw [ServeBlob_falls_through lib nfr bs ctx w r dgst desc path hstat hpath hdecl]
  simp [serveDirect, Exec.call, hopen, setHeaders_eq]

end paths

/-- Every execution of `ServeBlob` follows one of six paths. -/
theorem ServeBlob_cases (lib : NetHTTP) (nfr : NewFileReader) (bs : blobServer)
    (ctx : Context) (w : Header) (r : Request) (dgst : Digest) :
    (∃ e, bs.statter.Stat ctx dgst = .error e ∧
      ServeBlob lib nfr bs ctx w r dgst = ⟨some e, w, [Event.Stat ctx dgst],
        ⟨w, none, ""⟩⟩) ∨
    (∃ desc, bs.statter.Stat ctx dgst = .ok desc ∧
      ((∃ e, bs.pathFn desc.Digest = .error e ∧
          ServeBlob lib nfr bs ctx w r dgst =
            ⟨some e, w, [Event.Stat ctx dgst, Event.pathFn desc.Digest],
        ⟨w, none, ""⟩⟩) ∨
        (∃ path, bs.pathFn desc.Digest = .ok path ∧
          ((∃ e, bs.redirect = true ∧ bs.driver.RedirectURL r path = .error e ∧
              ServeBlob lib nfr bs ctx w r dgst =
                ⟨some e, w, [Event.Stat ctx dgst, Event.pathFn desc.Digest,
                  Event.RedirectURL r path],
        ⟨w, none, ""⟩⟩) ∨
            (∃ u, bs.redirect = true ∧ bs.driver.RedirectURL r path = .ok u ∧ u ≠ "" ∧
              ServeBlob lib nfr bs ctx w r dgst =
                ⟨none, w, [Event.Stat ctx dgst, Event.pathFn desc.Digest,
                  Event.RedirectURL r path, Event.Redirect w r u StatusTemporaryRedirect],
        http.Redirect lib ⟨w, none, ""⟩ r u StatusTemporaryRedirect⟩) ∨
            ((bs.redirect = false ∨ bs.driver.RedirectURL r path = .ok "") ∧
              ((∃ e, nfr ctx bs.driver path desc.Size = .error e ∧
                  ServeBlob lib nfr bs ctx w r dgst =
                    ⟨some e, w, preamble bs ctx r dgst desc path ++
                      [Event.newFileReader ctx path desc.Size],
        ⟨w, none, ""⟩⟩) ∨
                (∃ br, nfr ctx bs.driver path desc.Size = .ok br ∧
                  ServeBlob lib nfr bs ctx w r dgst =
                    ⟨none, directHeader w desc,
                      preamble bs ctx r dgst desc path ++
                        [Event.newFileReader ctx path desc.Size] ++ directSets w desc ++
                        [Event.ServeContent (directHeader w desc) r desc.Digest
                            Time.zeroValue br,
                          Event.Close br],
        lib.ServeContent ⟨directHeader w desc, none, ""⟩ r desc.Digest Time.zeroValue br⟩))))))) := by
  cases hstat : bs.statter.Stat ctx dgst with
  | error e => exact Or.inl ⟨e, rfl, ServeBlob_of_stat_error lib nfr bs ctx w r dgst e hstat⟩
  | ok desc =>
    refine Or.inr ⟨desc, rfl, ?_⟩
    cases hpath : bs.pathFn desc.Digest with
    | error e =>
      exact Or.inl ⟨e, rfl, ServeBlob_of_path_error lib nfr bs ctx w r dgst desc e hstat hpath⟩
    | ok path =>
      refine Or.inr ⟨path, rfl, ?_⟩
      have direct : (bs.redirect = false ∨ bs.driver.RedirectURL r path = .ok "") →
          ((∃ e, nfr ctx bs.driver path desc.Size = .error e ∧
              ServeBlob lib nfr bs ctx w r dgst =
                ⟨some e, w, preamble bs ctx r dgst desc path ++
                  [Event.newFileReader ctx path desc.Size],
        ⟨w, none, ""⟩⟩) ∨
            (∃ br, nfr ctx bs.driver path desc.Size = .ok br ∧
              ServeBlob lib nfr bs ctx w r dgst =
                ⟨none, directHeader w desc,
                  preamble bs ctx r dgst desc path ++
                    [Event.newFileReader ctx path desc.Size] ++ directSets w desc ++
                    [Event.ServeContent (directHeader w desc) r desc.Digest
                        Time.zeroValue br,
                      Event.Close br],
        lib.ServeContent ⟨directHeader w desc, none, ""⟩ r desc.Digest Time.zeroValue br⟩)) := by
        intro hdecl
        cases hopen : nfr ctx bs.driver path desc.Size with
        | error e =>
          exact Or.inl ⟨e, rfl,
            ServeBlob_of_reader_error lib nfr bs ctx w r dgst desc path e hstat hpath hdecl hopen⟩
        | ok br =>
          exact Or.inr ⟨br, rfl,
            ServeBlob_of_direct lib nfr bs ctx w r dgst desc path br hstat hpath hdecl hopen⟩
      cases hflag : bs.redirect with
      | false => exact Or.inr (Or.inr ⟨Or.inl rfl, direct (Or.inl hflag)⟩)
      | true =>
        cases hurl : bs.driver.RedirectURL r path with
        | error e =>
          exact Or.inl ⟨e, rfl, rfl,
            ServeBlob_of_redirect_error lib nfr bs ctx w r dgst desc path e hstat hpath hflag hurl⟩
        | ok u =>
          by_cases hu : u = ""
          · subst hu
            exact Or.inr (Or.inr ⟨Or.inr rfl, direct (Or.inr hurl)⟩)
          · exact Or.inr (Or.inl ⟨u, rfl, rfl, hu,
              ServeBlob_of_redirect_url lib nfr bs ctx w r dgst desc path u hstat hpath hflag hurl hu⟩)

theorem preamble_no_emit (bs : blobServer) (ctx : Context) (r : Request) (dgst : Digest)
    (desc : Descriptor) (path : String) :
    ∀ ev ∈ preamble bs ctx r dgst desc path,
      ev.emits = false ∧ ev.isClose = false ∧ ev.isServeContent = false ∧
        ∀ c p s, ev ≠ Event.newFileReader c p s := by
  intro ev hev
  unfold preamble at hev
  cases hflag : bs.redirect
  · simp [hflag] at hev
    rcases hev with h | h <;> subst h <;>
      simp [Event.emits, Event.isClose, Event.isServeContent]
  · simp [hflag] at hev
    rcases hev with h | h | h <;> subst h <;>
      simp [Event.emits, Event.isClose, Event.isServeContent]

theorem mem_preamble (bs : blobServer) (ctx : Context) (r : Request) (dgst : Digest)
    (desc : Descriptor) (path : String) (ev : Event)
    (hev : ev ∈ preamble bs ctx r dgst desc path) :
    ev = Event.Stat ctx dgst ∨ ev = Event.pathFn desc.Digest ∨
      (ev = Event.RedirectURL r path ∧ bs.redirect = true) := by
  unfold preamble at hev
  cases hflag : bs.redirect
  · simp [hflag] at hev
    rcases hev with h | h
    · exact Or.inl h
    · exact Or.inr (Or.inl h)
  · simp [hflag] at hev
    rcases hev with h | h | h
    · exact Or.inl h
    · exact Or.inr (Or.inl h)
    · exact Or.inr (Or.inr ⟨h, rfl⟩)

/-- Membership in the trace of a direct serve. -/
theorem mem_direct_trace (bs : blobServer) (ctx : Context) (w : Header) (r : Request)
    (dgst : Digest) (desc : Descriptor) (path : String) (br : FileReader) (ev : Event)
    (hev : ev ∈ preamble bs ctx r dgst desc path ++ [Event.newFileReader ctx path desc.Size] ++
      directSets w desc ++
      [Event.ServeContent (directHeader w desc) r desc.Digest Time.zeroValue br,
        Event.Close br]) :
    ev ∈ preamble bs ctx r dgst desc path ∨ ev = Event.newFileReader ctx path desc.Size ∨
      ev ∈ directSets w desc ∨
      ev = Event.ServeContent (directHeader w desc) r desc.Digest Time.zeroValue br ∨
      ev = Event.Close br := by
  simp only [List.mem_append, List.mem_cons, List.mem_singleton, List.not_mem_nil,
    or_false, or_assoc] at hev
  exact hev

/-- Every call in the trace of an execution whose `Stat` returned `desc` has
one of these shapes. -/
theorem trace_forms (lib : NetHTTP) (nfr : NewFileReader) (bs : blobServer)
    (ctx : Context) (w : Header) (r : Request) (dgst : Digest) (desc : Descriptor)
    (hstat : bs.statter.Stat ctx dgst = .ok desc) (ev : Event)
    (hev : ev ∈ (ServeBlob lib nfr bs ctx w r dgst).trace) :
    ev = Event.Stat ctx dgst ∨ ev = Event.pathFn desc.Digest ∨
      ∃ path, bs.pathFn desc.Digest = .ok path ∧
        (ev = Event.RedirectURL r path ∨
          (∃ u, ev = Event.Redirect w r u 307) ∨
          ev = Event.newFileReader ctx path desc.Size ∨
          ∃ br, nfr ctx bs.driver path desc.Size = .ok br ∧
            (ev ∈ directSets w desc ∨
              ev = Event.ServeContent (directHeader w desc) r desc.Digest Time.zeroValue br ∨
              ev = Event.Close br)) := by
  rcases ServeBlob_cases lib nfr bs ctx w r dgst with
    ⟨e1, hstat1, hout⟩ | ⟨desc1, hstat1, hrest⟩
  · rw [hstat] at hstat1
    cases hstat1
  · rw [hstat] at hstat1
    cases hstat1
    rcases hrest with ⟨e1, hpath, hout⟩ | ⟨path, hpath,
        ⟨e1, hflag, hurl, hout⟩ | ⟨u, hflag, hurl, hu, hout⟩ |
        ⟨hdecl, ⟨e1, hopen, hout⟩ | ⟨br, hopen, hout⟩⟩⟩
    · rw [hout] at hev
      simp at hev
      rcases hev with h | h
      · exact Or.inl h
      · exact Or.inr (Or.inl h)
    · rw [hout] at hev
      simp at hev
      rcases hev with h | h | h
      · exact Or.inl h
      · exact Or.inr (Or.inl h)
      · exact Or.inr (Or.inr ⟨path, hpath, Or.inl h⟩)
    · rw [hout] at hev
      simp only [List.mem_cons, List.mem_singleton, List.not_mem_nil, or_false] at hev
      rcases hev with h | h | h | h
      · exact Or.inl h
      · exact Or.inr (Or.inl h)
      · exact Or.inr (Or.inr ⟨path, hpath, Or.inl h⟩)
      · exact Or.inr (Or.inr ⟨path, hpath, Or.inr (Or.inl ⟨u, h⟩)⟩)
    · rw [hout] at hev
      simp only [List.mem_append, List.mem_singleton] at hev
      rcases hev with h | h
      · rcases mem_preamble bs ctx r dgst desc path _ h with h2 | h2 | ⟨h2, _⟩
        · exact Or.inl h2
        · exact Or.inr (Or.inl h2)
        · exact Or.inr (Or.inr ⟨path, hpath, Or.inl h2⟩)
      · exact Or.inr (Or.inr ⟨path, hpath, Or.inr (Or.inr (Or.inl h))⟩)
    · rw [hout] at hev
      rcases mem_direct_trace bs ctx w r dgst desc path br _ hev with h | h | h | h | h
      · rcases mem_preamble bs ctx r dgst desc path _ h with h2 | h2 | ⟨h2, _⟩
        · exact Or.inl h2
        · exact Or.inr (Or.inl h2)
        · exact Or.inr (Or.inr ⟨path, hpath, Or.inl h2⟩)
      · exact Or.inr (Or.inr ⟨path, hpath, Or.inr (Or.inr (Or.inl h))⟩)
      · exact Or.inr (Or.inr ⟨path, hpath, Or.inr (Or.inr (Or.inr ⟨br, hopen, Or.inl h⟩))⟩)
      · exact Or.inr (Or.inr ⟨path, hpath,
          Or.inr (Or.inr (Or.inr ⟨br, hopen, Or.inr (Or.inl h)⟩))⟩)
      · exact Or.inr (Or.inr ⟨path, hpath,
          Or.inr (Or.inr (Or.inr ⟨br, hopen, Or.inr (Or.inr h)⟩))⟩)

/-- An execution either is a direct serve, with the trace of one, or opens no
reader and closes none. -/
theorem release_dichotomy (lib : NetHTTP) (nfr : NewFileReader) (bs : blobServer)
    (ctx : Context) (w : Header) (r : Request) (dgst : Digest) :
    (∃ desc path br, bs.statter.Stat ctx dgst = .ok desc ∧ bs.pathFn desc.Digest = .ok path ∧
      (bs.redirect = false ∨ bs.driver.RedirectURL r path = .ok "") ∧
      nfr ctx bs.driver path desc.Size = .ok br ∧
      ServeBlob lib nfr bs ctx w r dgst =
        ⟨none, directHeader w desc,
          preamble bs ctx r dgst desc path ++ [Event.newFileReader ctx path desc.Size] ++
            directSets w desc ++
            [Event.ServeContent (directHeader w desc) r desc.Digest Time.zeroValue br,
              Event.Close br],
        lib.ServeContent ⟨directHeader w desc, none, ""⟩ r desc.Digest Time.zeroValue br⟩) ∨
    ((∀ ev ∈ (ServeBlob lib nfr bs ctx w r dgst).trace, ev.isClose = false) ∧
      (∀ c p s, Event.newFileReader c p s ∈ (ServeBlob lib nfr bs ctx w r dgst).trace →
        ∀ br, nfr c bs.driver p s ≠ .ok br)) := by
  rcases ServeBlob_cases lib nfr bs ctx w r dgst with
    ⟨e1, hstat, hout⟩ | ⟨desc, hstat, ⟨e1, hpath, hout⟩ | ⟨path, hpath,
      ⟨e1, hflag, hurl, hout⟩ | ⟨u, hflag, hurl, hu, hout⟩ |
      ⟨hdecl, ⟨e1, hopen, hout⟩ | ⟨br, hopen, hout⟩⟩⟩⟩
  · right
    rw [hout]
    simp [Event.isClose]
  · right
    rw [hout]
    simp [Event.isClose]
  · right
    rw [hout]
    simp [Event.isClose]
  · right
    rw [hout]
    simp [Event.isClose]
  · right
    rw [hout]
    constructor
    · intro ev hev
      simp only [List.mem_append, List.mem_singleton] at hev
      rcases hev with h | h
      · exact (preamble_no_emit bs ctx r dgst desc path ev h).2.1
      · subst h
        rfl
    · intro c p s hmem br hbr
      simp only [List.mem_append, List.mem_singleton] at hmem
      rcases hmem with h | h
      · exact (preamble_no_emit bs ctx r dgst desc path _ h).2.2.2 c p s rfl
      · injection h with hc hp hs
        rw [hc, hp, hs, hopen] at hbr
        cases hbr
  · exact Or.inl ⟨desc, path, br, hstat, hpath, hdecl, hopen, hout⟩

/-! ## The redirect path -/

/-- C1, counterexample: for a GET request on a response without a
`Content-Type` entry, with the redirect flag on and the driver returning a
URL, the response that `ServeBlob` leaves has a body, the HTML link written by
`http.Redirect`, and a `Content-Type` that `http.Redirect` has set. -/
theorem ServeBlob_redirect_writes_body :
    sampleRequest.Method = "GET" ∧
      Header.has [] "Content-Type" = false ∧
      (ServeBlob sampleHTTP sampleReader redirectServer sampleCtx [] sampleRequest
        "sha256:abc").err = none ∧
      (ServeBlob sampleHTTP sampleReader redirectServer sampleCtx [] sampleRequest
        "sha256:abc").resp.status = some 307 ∧
      (ServeBlob sampleHTTP sampleReader redirectServer sampleCtx [] sampleRequest
        "sha256:abc").resp.body =
          "<a href=\"https://backend.example/blobs/sha256:abc/data\">Temporary Redirect</a>.\n\n" ∧
      (ServeBlob sampleHTTP sampleReader redirectServer sampleCtx [] sampleRequest
        "sha256:abc").resp.body ≠ "" ∧
      (ServeBlob sampleHTTP sampleReader redirectServer sampleCtx [] sampleRequest
        "sha256:abc").resp.header.Get "Content-Type" = "text/html; charset=utf-8" := by
  decide

/-- C1, amended: when `Stat` and the path function succeed, the redirect flag
is on and `RedirectURL` returns a non-empty URL `u`, `ServeBlob` returns nil
and its whole activity is the three collaborator calls followed by one
`http.Redirect(w, r, u, 307)` on the untouched header map: it writes no header
itself, opens no reader and never calls the content responder.  The response
it leaves is the one `http.Redirect` makes: status 307, `Location` set for
`u`, every entry other than `Location` and `Content-Type` as the caller left
it, `Content-Type` set to `text/html; charset=utf-8` only for a GET or HEAD
request on a response that had no such entry, and a body, the short HTML link
to `u`, only for a GET request on a response that had no `Content-Type`
entry; in every other case there is no body. -/
theorem ServeBlob_redirects (lib : NetHTTP) (nfr : NewFileReader) (bs : blobServer)
    (ctx : Context) (w : Header) (r : Request) (dgst : Digest) (desc : Descriptor)
    (path u : String)
    (hstat : bs.statter.Stat ctx dgst = .ok desc)
    (hpath : bs.pathFn desc.Digest = .ok path)
    (hflag : bs.redirect = true)
    (hurl : bs.driver.RedirectURL r path = .ok u)
    (hne : u ≠ "") :
    (ServeBlob lib nfr bs ctx w r dgst).err = none ∧
    (ServeBlob lib nfr bs ctx w r dgst).trace =
      [Event.Stat ctx dgst, Event.pathFn desc.Digest, Event.RedirectURL r path,
        Event.Redirect w r u 307] ∧
    (ServeBlob lib nfr bs ctx w r dgst).trace.count (Event.Redirect w r u 307) = 1 ∧
    (∀ ev ∈ (ServeBlob lib nfr bs ctx w r dgst).trace,
      (∀ k v, ev ≠ Event.HeaderSet k v) ∧ (∀ c p s, ev ≠ Event.newFileReader c p s) ∧
        ev.isServeContent = false) ∧
    (ServeBlob lib nfr bs ctx w r dgst).resp = http.Redirect lib ⟨w, none, ""⟩ r u 307 ∧
    (ServeBlob lib nfr bs ctx w r dgst).resp.status = some 307 ∧
    (ServeBlob lib nfr bs ctx w r dgst).resp.header.Get "Location" =
      lib.hexEscapeNonASCII (lib.resolveURL r u) ∧
    (∀ k, k ≠ "Location" → k ≠ "Content-Type" →
      (ServeBlob lib nfr bs ctx w r dgst).resp.header.values k = w.values k) ∧
    (w.has "Content-Type" = true ∨ (r.Method ≠ "GET" ∧ r.Method ≠ "HEAD") →
      (ServeBlob lib nfr bs ctx w r dgst).resp.header.values "Content-Type" =
        w.values "Content-Type") ∧
    (w.has "Content-Type" = false → r.Method = "GET" ∨ r.Method = "HEAD" →
      (ServeBlob lib nfr bs ctx w r dgst).resp.header.Get "Content-Type" =
        "text/html; charset=utf-8") ∧
    (w.has "Content-Type" = false → r.Method = "GET" →
      (ServeBlob lib nfr bs ctx w r dgst).resp.body =
          "<a href=\"" ++ lib.htmlEscape (lib.resolveURL r u) ++ "\">" ++ lib.StatusText 307 ++
            "</a>.\n" ++ "\n" ∧
        (ServeBlob lib nfr bs ctx w r dgst).resp.body ≠ "") ∧
    (w.has "Content-Type" = true ∨ r.Method ≠ "GET" →
      (ServeBlob lib nfr bs ctx w r dgst).resp.body = "") := by
  have hout := ServeBlob_of_redirect_url lib nfr bs ctx w r dgst desc path u hstat hpath hflag
    hurl hne
  rw [hout]
  simp only []
  refine ⟨trivial, rfl, ?_, ?_, rfl, Redirect_status lib w r u 307,
    Redirect_Location lib w r u 307, Redirect_values_other lib w r u 307,
    Redirect_ContentType_kept lib w r u 307, Redirect_ContentType_set lib w r u 307,
    Redirect_body_link lib w r u 307, Redirect_body_none lib w r u 307⟩
  · simp [StatusTemporaryRedirect, List.count_cons]
  · intro ev hev
    simp at hev
    rcases hev with h | h | h | h <;> subst h <;> simp [Event.isServeContent]

theorem ServeBlob_redirects_witness :
    (ServeBlob sampleHTTP sampleReader redirectServer sampleCtx presetHeader sampleRequest
        "sha256:abc").err = none ∧
      (ServeBlob sampleHTTP sampleReader redirectServer sampleCtx presetHeader sampleRequest
        "sha256:abc").resp.status = some 307 ∧
      (ServeBlob sampleHTTP sampleReader redirectServer sampleCtx presetHeader sampleRequest
        "sha256:abc").resp.header.Get "Location" =
          "https://backend.example/blobs/sha256:abc/data" ∧
      (ServeBlob sampleHTTP sampleReader redirectServer sampleCtx presetHeader sampleRequest
        "sha256:abc").resp.body = "" :=
  have h := ServeBlob_redirects sampleHTTP sampleReader redirectServer sampleCtx presetHeader
    sampleRequest "sha256:abc" sampleDesc "/blobs/sha256:abc/data"
    "https://backend.example/blobs/sha256:abc/data" (by decide) (by decide) rfl (by decide)
    (by decide)
  ⟨h.1, h.2.2.2.2.2.1, h.2.2.2.2.2.2.1, h.2.2.2.2.2.2.2.2.2.2.2 (Or.inl (by decide))⟩

/-! ## Errors -/

/-- C5: when `Stat` fails with `e` (the blob-unknown error included),
`ServeBlob` returns `e`, leaves the header map alone and has made no call but
`Stat`: no path function, no `RedirectURL`, no reader open, whatever the
redirect flag. -/
theorem ServeBlob_stat_failure (lib : NetHTTP) (nfr : NewFileReader) (bs : blobServer)
    (ctx : Context) (w : Header) (r : Request) (dgst : Digest) (e : Error)
    (hstat : bs.statter.Stat ctx dgst = .error e) :
    (ServeBlob lib nfr bs ctx w r dgst).err = some e ∧
      (ServeBlob lib nfr bs ctx w r dgst).header = w ∧
      (ServeBlob lib nfr bs ctx w r dgst).trace = [Event.Stat ctx dgst] := by
  rw [ServeBlob_of_stat_error lib nfr bs ctx w r dgst e hstat]
  exact ⟨rfl, rfl, rfl⟩

theorem ServeBlob_stat_failure_witness :
    (ServeBlob sampleHTTP sampleReader redirectServer sampleCtx [] sampleRequest "sha256:zzz").err =
        some Error.ErrBlobUnknown ∧
      (ServeBlob sampleHTTP sampleReader redirectServer sampleCtx [] sampleRequest "sha256:zzz").header = [] ∧
      (ServeBlob sampleHTTP sampleReader redirectServer sampleCtx [] sampleRequest "sha256:zzz").trace =
        [Event.Stat sampleCtx "sha256:zzz"] :=
  ServeBlob_stat_failure sampleHTTP sampleReader redirectServer sampleCtx [] sampleRequest "sha256:zzz"
    Error.ErrBlobUnknown (by decide)

/-- C6: each of the four collaborator calls (`Stat`, the path function,
`RedirectURL` when the redirect flag is on, the reader open), when reached and
failing with `e`, makes `ServeBlob` return exactly `e`; and a non-nil error is
returned in these four cases only, so that the returned error is always the one
a collaborator reported. -/
theorem ServeBlob_error_propagation (lib : NetHTTP) (nfr : NewFileReader) (bs : blobServer)
    (ctx : Context) (w : Header) (r : Request) (dgst : Digest) :
    (∀ e, bs.statter.Stat ctx dgst = .error e →
      (ServeBlob lib nfr bs ctx w r dgst).err = some e) ∧
    (∀ desc e, bs.statter.Stat ctx dgst = .ok desc → bs.pathFn desc.Digest = .error e →
      (ServeBlob lib nfr bs ctx w r dgst).err = some e) ∧
    (∀ desc path e, bs.statter.Stat ctx dgst = .ok desc → bs.pathFn desc.Digest = .ok path →
      bs.redirect = true → bs.driver.RedirectURL r path = .error e →
      (ServeBlob lib nfr bs ctx w r dgst).err = some e) ∧
    (∀ desc path e, bs.statter.Stat ctx dgst = .ok desc → bs.pathFn desc.Digest = .ok path →
      (bs.redirect = false ∨ bs.driver.RedirectURL r path = .ok "") →
      nfr ctx bs.driver path desc.Size = .error e →
      (ServeBlob lib nfr bs ctx w r dgst).err = some e) ∧
    (∀ e, (ServeBlob lib nfr bs ctx w r dgst).err = some e →
      bs.statter.Stat ctx dgst = .error e ∨
      ∃ desc, bs.statter.Stat ctx dgst = .ok desc ∧
        (bs.pathFn desc.Digest = .error e ∨
          ∃ path, bs.pathFn desc.Digest = .ok path ∧
            ((bs.redirect = true ∧ bs.driver.RedirectURL r path = .error e) ∨
              ((bs.redirect = false ∨ bs.driver.RedirectURL r path = .ok "") ∧
                nfr ctx bs.driver path desc.Size = .error e)))) := by
  refine ⟨?_, ?_, ?_, ?_, ?_⟩
  · intro e hstat
    rw [ServeBlob_of_stat_error lib nfr bs ctx w r dgst e hstat]
  · intro desc e hstat hpath
    rw [ServeBlob_of_path_error lib nfr bs ctx w r dgst desc e hstat hpath]
  · intro desc path e hstat hpath hflag hurl
    rw [ServeBlob_of_redirect_error lib nfr bs ctx w r dgst desc path e hstat hpath hflag hurl]
  · intro desc path e hstat hpath hdecl hopen
    rw [ServeBlob_of_reader_error lib nfr bs ctx w r dgst desc path e hstat hpath hdecl hopen]
  · intro e herr
    rcases ServeBlob_cases lib nfr bs ctx w r dgst with
      ⟨e1, hstat, hout⟩ | ⟨desc, hstat, ⟨e1, hpath, hout⟩ | ⟨path, hpath,
        ⟨e1, hflag, hurl, hout⟩ | ⟨u, hflag, hurl, hu, hout⟩ |
        ⟨hdecl, ⟨e1, hopen, hout⟩ | ⟨br, hopen, hout⟩⟩⟩⟩
    · rw [hout] at herr
      have he : e1 = e := by simpa using herr
      subst he
      exact Or.inl hstat
    · rw [hout] at herr
      have he : e1 = e := by simpa using herr
      subst he
      exact Or.inr ⟨desc, hstat, Or.inl hpath⟩
    · rw [hout] at herr
      have he : e1 = e := by simpa using herr
      subst he
      exact Or.inr ⟨desc, hstat, Or.inr ⟨path, hpath, Or.inl ⟨hflag, hurl⟩⟩⟩
    · rw [hout] at herr
      simp at herr
    · rw [hout] at herr
      have he : e1 = e := by simpa using herr
      subst he
      exact Or.inr ⟨desc, hstat, Or.inr ⟨path, hpath, Or.inr ⟨hdecl, hopen⟩⟩⟩
    · rw [hout] at herr
      simp at herr

theorem ServeBlob_error_propagation_witness :
    (ServeBlob sampleHTTP failingReader directServer sampleCtx [] sampleRequest "sha256:abc").err =
      some (Error.other "open failed") :=
  (ServeBlob_error_propagation sampleHTTP failingReader directServer sampleCtx [] sampleRequest
    "sha256:abc").2.2.2.1 sampleDesc "/blobs/sha256:abc/data" (Error.other "open failed")
    (by decide) (by decide) (Or.inl rfl) (by decide)

/-- C7: whenever `ServeBlob` returns a non-nil error the header map is the
caller's, the response is as the caller left it, with no status and no body
written, and no call that emits anything (a header write, `http.Redirect`,
`http.ServeContent`) has been made; and an error from `RedirectURL` is returned
as it is, with no reader open attempted. -/
theorem ServeBlob_error_emits_nothing (lib : NetHTTP) (nfr : NewFileReader)
    (bs : blobServer) (ctx : Context) (w : Header) (r : Request) (dgst : Digest) :
    (∀ e, (ServeBlob lib nfr bs ctx w r dgst).err = some e →
      (ServeBlob lib nfr bs ctx w r dgst).header = w ∧
        (∀ ev ∈ (ServeBlob lib nfr bs ctx w r dgst).trace, ev.emits = false) ∧
        (ServeBlob lib nfr bs ctx w r dgst).resp = ⟨w, none, ""⟩) ∧
    (∀ desc path e, bs.statter.Stat ctx dgst = .ok desc → bs.pathFn desc.Digest = .ok path →
      bs.redirect = true → bs.driver.RedirectURL r path = .error e →
      (ServeBlob lib nfr bs ctx w r dgst).err = some e ∧
        ∀ c p s, Event.newFileReader c p s ∉ (ServeBlob lib nfr bs ctx w r dgst).trace) := by
  constructor
  · intro e herr
    rcases ServeBlob_cases lib nfr bs ctx w r dgst with
      ⟨e1, hstat, hout⟩ | ⟨desc, hstat, ⟨e1, hpath, hout⟩ | ⟨path, hpath,
        ⟨e1, hflag, hurl, hout⟩ | ⟨u, hflag, hurl, hu, hout⟩ |
        ⟨hdecl, ⟨e1, hopen, hout⟩ | ⟨br, hopen, hout⟩⟩⟩⟩
    · rw [hout]
      simp [Event.emits]
    · rw [hout]
      simp [Event.emits]
    · rw [hout]
      simp [Event.emits]
    · rw [hout] at herr
      simp at herr
    · rw [hout]
      refine ⟨rfl, ?_, rfl⟩
      intro ev hev
      simp only [List.mem_append, List.mem_singleton] at hev
      rcases hev with h | h
      · exact (preamble_no_emit bs ctx r dgst desc path ev h).1
      · subst h
        rfl
    · rw [hout] at herr
      simp at herr
  · intro desc path e hstat hpath hflag hurl
    rw [ServeBlob_of_redirect_error lib nfr bs ctx w r dgst desc path e hstat hpath hflag hurl]
    simp

theorem ServeBlob_error_emits_nothing_witness :
    ((ServeBlob sampleHTTP sampleReader brokenRedirectServer sampleCtx presetHeader
        sampleRequest "sha256:abc").header = presetHeader ∧
      (∀ ev ∈ (ServeBlob sampleHTTP sampleReader brokenRedirectServer sampleCtx presetHeader
        sampleRequest "sha256:abc").trace, ev.emits = false) ∧
      (ServeBlob sampleHTTP sampleReader brokenRedirectServer sampleCtx presetHeader
        sampleRequest "sha256:abc").resp = ⟨presetHeader, none, ""⟩) ∧
    ((ServeBlob sampleHTTP sampleReader brokenRedirectServer sampleCtx presetHeader
        sampleRequest "sha256:abc").err = some (Error.other "driver down") ∧
      ∀ c p s, Event.newFileReader c p s ∉
        (ServeBlob sampleHTTP sampleReader brokenRedirectServer sampleCtx presetHeader
          sampleRequest "sha256:abc").trace) :=
  have h := ServeBlob_error_emits_nothing sampleHTTP sampleReader brokenRedirectServer
    sampleCtx presetHeader sampleRequest "sha256:abc"
  ⟨h.1 (Error.other "driver down") (by decide),
    h.2 sampleDesc "/blobs/sha256:abc/data" (Error.other "driver down") (by decide) (by decide)
      rfl (by decide)⟩

/-! ## The direct-serve path -/

/-- C2: when `Stat`, the path function and the reader open succeed and the
redirect flag is off or `RedirectURL` returns the empty string, `ServeBlob`
returns nil having handed the opened reader to `http.ServeContent` with a
header map whose `ETag` is the descriptor digest in double quotes and whose
`Content-Length`, if the caller had set none, is the decimal rendering of
`desc.Size`; no redirect is issued, and with the flag off `RedirectURL` is not
called. -/
theorem ServeBlob_serves_directly (lib : NetHTTP) (nfr : NewFileReader) (bs : blobServer)
    (ctx : Context) (w : Header) (r : Request) (dgst : Digest) (desc : Descriptor) (path : String)
    (br : FileReader)
    (hstat : bs.statter.Stat ctx dgst = .ok desc)
    (hpath : bs.pathFn desc.Digest = .ok path)
    (hdecl : bs.redirect = false ∨ bs.driver.RedirectURL r path = .ok "")
    (hopen : nfr ctx bs.driver path desc.Size = .ok br) :
    (ServeBlob lib nfr bs ctx w r dgst).err = none ∧
      Event.ServeContent (ServeBlob lib nfr bs ctx w r dgst).header r desc.Digest
        Time.zeroValue br ∈ (ServeBlob lib nfr bs ctx w r dgst).trace ∧
      (ServeBlob lib nfr bs ctx w r dgst).header.Get "ETag" = "\"" ++ desc.Digest ++ "\"" ∧
      (w.Get "Content-Length" = "" →
        (ServeBlob lib nfr bs ctx w r dgst).header.Get "Content-Length" = fmtSprint desc.Size) ∧
      (∀ h q u c, Event.Redirect h q u c ∉ (ServeBlob lib nfr bs ctx w r dgst).trace) ∧
      (bs.redirect = false →
        ∀ q p, Event.RedirectURL q p ∉ (ServeBlob lib nfr bs ctx w r dgst).trace) := by
  rw [ServeBlob_of_direct lib nfr bs ctx w r dgst desc path br hstat hpath hdecl hopen]
  simp only []
  refine ⟨trivial, by simp, directHeader_ETag w desc, ?_, ?_, ?_⟩
  · intro hcl
    rw [directHeader_ContentLength, if_pos hcl]
  · intro h q u c hmem
    rcases mem_direct_trace bs ctx w r dgst desc path br _ hmem with h1 | h1 | h1 | h1 | h1
    · rcases mem_preamble bs ctx r dgst desc path _ h1 with h2 | h2 | ⟨h2, _⟩ <;> cases h2
    · cases h1
    · exact (directSets_props w desc _ h1).2.2.2.2.2 h q u c rfl
    · cases h1
    · cases h1
  · intro hflag q p hmem
    rcases mem_direct_trace bs ctx w r dgst desc path br _ hmem with h1 | h1 | h1 | h1 | h1
    · rcases mem_preamble bs ctx r dgst desc path _ h1 with h2 | h2 | ⟨_, h2⟩
      · cases h2
      · cases h2
      · rw [hflag] at h2
        cases h2
    · cases h1
    · exact (directSets_props w desc _ h1).2.2.2.2.1 q p rfl
    · cases h1
    · cases h1

theorem ServeBlob_serves_directly_witness :
    (ServeBlob sampleHTTP sampleReader directServer sampleCtx [] sampleRequest "sha256:abc").err = none ∧
      (ServeBlob sampleHTTP sampleReader directServer sampleCtx [] sampleRequest "sha256:abc").header.Get
        "ETag" = "\"sha256:abc\"" ∧
      (ServeBlob sampleHTTP sampleReader directServer sampleCtx [] sampleRequest "sha256:abc").header.Get
        "Content-Length" = "1024" :=
  have h := ServeBlob_serves_directly sampleHTTP sampleReader directServer sampleCtx [] sampleRequest
    "sha256:abc" sampleDesc "/blobs/sha256:abc/data" ⟨7⟩ (by decide) (by decide) (Or.inl rfl)
    (by decide)
  ⟨h.1, h.2.2.1, h.2.2.2.1 (by decide)⟩

/-- C4: on a direct serve the `Content-Type` of the header map handed to
`http.ServeContent` is the caller's value when the caller had set a non-empty
one, and `desc.MediaType` when the caller had set none or an empty one. -/
theorem ServeBlob_content_type (lib : NetHTTP) (nfr : NewFileReader) (bs : blobServer)
    (ctx : Context) (w : Header) (r : Request) (dgst : Digest) (desc : Descriptor) (path : String)
    (br : FileReader)
    (hstat : bs.statter.Stat ctx dgst = .ok desc)
    (hpath : bs.pathFn desc.Digest = .ok path)
    (hdecl : bs.redirect = false ∨ bs.driver.RedirectURL r path = .ok "")
    (hopen : nfr ctx bs.driver path desc.Size = .ok br) :
    Event.ServeContent (ServeBlob lib nfr bs ctx w r dgst).header r desc.Digest
        Time.zeroValue br ∈ (ServeBlob lib nfr bs ctx w r dgst).trace ∧
      (w.Get "Content-Type" ≠ "" →
        (ServeBlob lib nfr bs ctx w r dgst).header.Get "Content-Type" = w.Get "Content-Type") ∧
      (w.Get "Content-Type" = "" →
        (ServeBlob lib nfr bs ctx w r dgst).header.Get "Content-Type" = desc.MediaType) := by
  rw [ServeBlob_of_direct lib nfr bs ctx w r dgst desc path br hstat hpath hdecl hopen]
  simp only []
  refine ⟨by simp, ?_, ?_⟩
  · intro hct
    rw [directHeader_ContentType, if_neg hct]
  · intro hct
    rw [directHeader_ContentType, if_pos hct]

theorem ServeBlob_content_type_witness :
    (ServeBlob sampleHTTP sampleReader directServer sampleCtx presetHeader sampleRequest
      "sha256:abc").header.Get "Content-Type" = "text/plain" :=
  (ServeBlob_content_type sampleHTTP sampleReader directServer sampleCtx presetHeader sampleRequest
    "sha256:abc" sampleDesc "/blobs/sha256:abc/data" ⟨7⟩ (by decide) (by decide) (Or.inl rfl)
    (by decide)).2.1 (by decide)

/-- C8: on every direct serve the `Cache-Control` header is exactly
`max-age=31536000`, the number of whole seconds in `365 * 24` hours, written
without fraction or exponent, whatever the digest and the descriptor (and
whether or not the caller had set a `Cache-Control` of its own). -/
theorem ServeBlob_cache_control (lib : NetHTTP) (nfr : NewFileReader) (bs : blobServer)
    (ctx : Context) (w : Header) (r : Request) (dgst : Digest) (desc : Descriptor) (path : String)
    (br : FileReader)
    (hstat : bs.statter.Stat ctx dgst = .ok desc)
    (hpath : bs.pathFn desc.Digest = .ok path)
    (hdecl : bs.redirect = false ∨ bs.driver.RedirectURL r path = .ok "")
    (hopen : nfr ctx bs.driver path desc.Size = .ok br) :
    (ServeBlob lib nfr bs ctx w r dgst).header.Get "Cache-Control" = "max-age=31536000" ∧
      Event.HeaderSet "Cache-Control" "max-age=31536000" ∈
        (ServeBlob lib nfr bs ctx w r dgst).trace ∧
      blobCacheControlMaxAge = 365 * 24 * 3600 * Second ∧
      (365 * 24 * 3600 : Int) = 31536000 := by
  rw [ServeBlob_of_direct lib nfr bs ctx w r dgst desc path br hstat hpath hdecl hopen]
  simp only []
  refine ⟨directHeader_CacheControl w desc, ?_, by decide, by decide⟩
  simp [directSets_eq]

theorem ServeBlob_cache_control_witness :
    (ServeBlob sampleHTTP sampleReader directServer sampleCtx [] sampleRequest "sha256:abc").header.Get
      "Cache-Control" = "max-age=31536000" :=
  (ServeBlob_cache_control sampleHTTP sampleReader directServer sampleCtx [] sampleRequest
    "sha256:abc" sampleDesc "/blobs/sha256:abc/data" ⟨7⟩ (by decide) (by decide) (Or.inl rfl)
    (by decide)).1

/-- C3, counterexample: on a direct serve of `sha256:abc` over a response on
which the caller has set `ETag` to `"caller"` and `Cache-Control` to `no-store`,
both non-empty, `ServeBlob` replaces both values. -/
theorem ServeBlob_overwrites_ETag_and_CacheControl :
    presetHeader.Get "ETag" = "\"caller\"" ∧
      presetHeader.Get "Cache-Control" = "no-store" ∧
      (ServeBlob sampleHTTP sampleReader directServer sampleCtx presetHeader sampleRequest
        "sha256:abc").err = none ∧
      (ServeBlob sampleHTTP sampleReader directServer sampleCtx presetHeader sampleRequest
        "sha256:abc").header.Get "ETag" = "\"sha256:abc\"" ∧
      (ServeBlob sampleHTTP sampleReader directServer sampleCtx presetHeader sampleRequest
        "sha256:abc").header.Get "Cache-Control" = "max-age=31536000" ∧
      (ServeBlob sampleHTTP sampleReader directServer sampleCtx presetHeader sampleRequest
        "sha256:abc").header.Get "ETag" ≠ presetHeader.Get "ETag" ∧
      (ServeBlob sampleHTTP sampleReader directServer sampleCtx presetHeader sampleRequest
        "sha256:abc").header.Get "Cache-Control" ≠ presetHeader.Get "Cache-Control" := by
  have hout := ServeBlob_of_direct sampleHTTP sampleReader directServer sampleCtx presetHeader
    sampleRequest "sha256:abc" sampleDesc "/blobs/sha256:abc/data" ⟨7⟩ (by decide) (by decide)
    (Or.inl rfl) (by decide)
  have h1 : presetHeader.Get "ETag" = "\"caller\"" := by decide
  have h2 : presetHeader.Get "Cache-Control" = "no-store" := by decide
  rw [hout, h1, h2]
  simp only [directHeader_ETag, directHeader_CacheControl]
  decide

/-- C3, amended: on a direct serve each of `Docker-Content-Digest` and
`Content-Type` that the caller has set to a non-empty value is not written by
`ServeBlob` and is handed to `http.ServeContent` with the caller's entry,
while `ETag` and `Cache-Control` are always written, to the quoted descriptor
digest and to `max-age=31536000`.  The response left at the return is what
`http.ServeContent` makes of the map handed over. -/
theorem ServeBlob_keeps_guarded_headers (lib : NetHTTP) (nfr : NewFileReader)
    (bs : blobServer) (ctx : Context) (w : Header) (r : Request) (dgst : Digest)
    (desc : Descriptor) (path : String) (br : FileReader)
    (hstat : bs.statter.Stat ctx dgst = .ok desc)
    (hpath : bs.pathFn desc.Digest = .ok path)
    (hdecl : bs.redirect = false ∨ bs.driver.RedirectURL r path = .ok "")
    (hopen : nfr ctx bs.driver path desc.Size = .ok br) :
    Event.ServeContent (ServeBlob lib nfr bs ctx w r dgst).header r desc.Digest
      Time.zeroValue br ∈ (ServeBlob lib nfr bs ctx w r dgst).trace ∧
    (ServeBlob lib nfr bs ctx w r dgst).resp =
      lib.ServeContent ⟨(ServeBlob lib nfr bs ctx w r dgst).header, none, ""⟩ r desc.Digest
        Time.zeroValue br ∧
    (w.Get "Docker-Content-Digest" ≠ "" →
      (ServeBlob lib nfr bs ctx w r dgst).header.values "Docker-Content-Digest" =
          w.values "Docker-Content-Digest" ∧
        (ServeBlob lib nfr bs ctx w r dgst).header.Get "Docker-Content-Digest" =
          w.Get "Docker-Content-Digest" ∧
        ∀ v, Event.HeaderSet "Docker-Content-Digest" v ∉
          (ServeBlob lib nfr bs ctx w r dgst).trace) ∧
    (w.Get "Content-Type" ≠ "" →
      (ServeBlob lib nfr bs ctx w r dgst).header.values "Content-Type" =
          w.values "Content-Type" ∧
        (ServeBlob lib nfr bs ctx w r dgst).header.Get "Content-Type" =
          w.Get "Content-Type" ∧
        ∀ v, Event.HeaderSet "Content-Type" v ∉ (ServeBlob lib nfr bs ctx w r dgst).trace) ∧
    (ServeBlob lib nfr bs ctx w r dgst).header.Get "ETag" = "\"" ++ desc.Digest ++ "\"" ∧
    (ServeBlob lib nfr bs ctx w r dgst).header.Get "Cache-Control" = "max-age=31536000" ∧
    Event.HeaderSet "ETag" ("\"" ++ desc.Digest ++ "\"") ∈
      (ServeBlob lib nfr bs ctx w r dgst).trace ∧
    Event.HeaderSet "Cache-Control" "max-age=31536000" ∈
      (ServeBlob lib nfr bs ctx w r dgst).trace := by
  rw [ServeBlob_of_direct lib nfr bs ctx w r dgst desc path br hstat hpath hdecl hopen]
  have nowrite : ∀ k v, Event.HeaderSet k v ∈
      preamble bs ctx r dgst desc path ++ [Event.newFileReader ctx path desc.Size] ++
        directSets w desc ++
        [Event.ServeContent (directHeader w desc) r desc.Digest Time.zeroValue br,
          Event.Close br] →
      k = "ETag" ∨ k = "Cache-Control" ∨
        (k = "Docker-Content-Digest" ∧ w.Get "Docker-Content-Digest" = "") ∨
        (k = "Content-Type" ∧ w.Get "Content-Type" = "") ∨
        k = "Content-Length" := by
    intro k v hmem
    rcases mem_direct_trace bs ctx w r dgst desc path br _ hmem with h1 | h1 | h1 | h1 | h1
    · rcases mem_preamble bs ctx r dgst desc path _ h1 with h2 | h2 | ⟨h2, _⟩ <;> cases h2
    · cases h1
    · rcases mem_directSets w desc _ h1 with h2 | h2 | ⟨h2, hc⟩ | ⟨h2, hc⟩ | ⟨h2, _⟩
      · injection h2 with hk _
        exact Or.inl hk
      · injection h2 with hk _
        exact Or.inr (Or.inl hk)
      · injection h2 with hk _
        exact Or.inr (Or.inr (Or.inl ⟨hk, hc⟩))
      · injection h2 with hk _
        exact Or.inr (Or.inr (Or.inr (Or.inl ⟨hk, hc⟩)))
      · injection h2 with hk _
        exact Or.inr (Or.inr (Or.inr (Or.inr hk)))
    · cases h1
    · cases h1
  simp only []
  refine ⟨by simp, trivial, ?_, ?_, directHeader_ETag w desc,
    directHeader_CacheControl w desc, ?_, ?_⟩
  · intro hk
    refine ⟨directHeader_values_DockerContentDigest w desc hk, ?_, ?_⟩
    · rw [directHeader_DockerContentDigest, if_neg hk]
    · intro v hmem
      rcases nowrite _ v hmem with h | h | ⟨_, h⟩ | ⟨h, _⟩ | h
      · exact absurd h (by decide)
      · exact absurd h (by decide)
      · exact hk h
      · exact absurd h (by decide)
      · exact absurd h (by decide)
  · intro hk
    refine ⟨directHeader_values_ContentType w desc hk, ?_, ?_⟩
    · rw [directHeader_ContentType, if_neg hk]
    · intro v hmem
      rcases nowrite _ v hmem with h | h | ⟨h, _⟩ | ⟨_, h⟩ | h
      · exact absurd h (by decide)
      · exact absurd h (by decide)
      · exact absurd h (by decide)
      · exact hk h
      · exact absurd h (by decide)
  · simp [directSets_eq]
  · simp [directSets_eq]

theorem ServeBlob_keeps_guarded_headers_witness :
    (ServeBlob sampleHTTP sampleReader directServer sampleCtx presetHeader sampleRequest
        "sha256:abc").header.Get "Docker-Content-Digest" = "sha256:caller" ∧
      (ServeBlob sampleHTTP sampleReader directServer sampleCtx presetHeader sampleRequest
        "sha256:abc").header.Get "Content-Type" = "text/plain" ∧
      (ServeBlob sampleHTTP sampleReader directServer sampleCtx presetHeader sampleRequest
        "sha256:abc").header.Get "ETag" = "\"sha256:abc\"" :=
  have h := ServeBlob_keeps_guarded_headers sampleHTTP sampleReader directServer sampleCtx
    presetHeader sampleRequest "sha256:abc" sampleDesc "/blobs/sha256:abc/data" ⟨7⟩ (by decide)
    (by decide) (Or.inl rfl) (by decide)
  ⟨(h.2.2.1 (by decide)).2.1, (h.2.2.2.1 (by decide)).2.1, h.2.2.2.2.1⟩

/-! ## The descriptor digest -/

/-- C9: whatever digest was requested, once `Stat` has returned `desc` the
path function is applied to `desc.Digest` only; every location handed to
`RedirectURL` or to the reader open is the path function's result on
`desc.Digest`; the reader is opened with bound `desc.Size`; every `ETag` and
`Docker-Content-Digest` value written and the name handed to
`http.ServeContent` are `desc.Digest` (quoted for `ETag`).  The calls are really
made: the path function is called, `RedirectURL` when the flag is on, and on a
direct serve the reader open, the `ETag` write and the responder. -/
theorem ServeBlob_uses_descriptor_digest (lib : NetHTTP) (nfr : NewFileReader) (bs : blobServer)
    (ctx : Context) (w : Header) (r : Request) (dgst : Digest) (desc : Descriptor)
    (hstat : bs.statter.Stat ctx dgst = .ok desc) :
    (∀ d, Event.pathFn d ∈ (ServeBlob lib nfr bs ctx w r dgst).trace → d = desc.Digest) ∧
    (∀ q p, Event.RedirectURL q p ∈ (ServeBlob lib nfr bs ctx w r dgst).trace →
      bs.pathFn desc.Digest = .ok p) ∧
    (∀ c p s, Event.newFileReader c p s ∈ (ServeBlob lib nfr bs ctx w r dgst).trace →
      bs.pathFn desc.Digest = .ok p ∧ s = desc.Size) ∧
    (∀ v, Event.HeaderSet "ETag" v ∈ (ServeBlob lib nfr bs ctx w r dgst).trace →
      v = "\"" ++ desc.Digest ++ "\"") ∧
    (∀ v, Event.HeaderSet "Docker-Content-Digest" v ∈ (ServeBlob lib nfr bs ctx w r dgst).trace →
      v = desc.Digest) ∧
    (∀ h q n t b, Event.ServeContent h q n t b ∈ (ServeBlob lib nfr bs ctx w r dgst).trace →
      n = desc.Digest ∧ h.Get "ETag" = "\"" ++ desc.Digest ++ "\"" ∧
        (w.Get "Docker-Content-Digest" = "" → h.Get "Docker-Content-Digest" = desc.Digest)) ∧
    Event.pathFn desc.Digest ∈ (ServeBlob lib nfr bs ctx w r dgst).trace ∧
    (∀ path, bs.pathFn desc.Digest = .ok path → bs.redirect = true →
      Event.RedirectURL r path ∈ (ServeBlob lib nfr bs ctx w r dgst).trace) ∧
    (∀ path, bs.pathFn desc.Digest = .ok path →
      (bs.redirect = false ∨ bs.driver.RedirectURL r path = .ok "") →
      Event.newFileReader ctx path desc.Size ∈ (ServeBlob lib nfr bs ctx w r dgst).trace) ∧
    (∀ path br, bs.pathFn desc.Digest = .ok path →
      (bs.redirect = false ∨ bs.driver.RedirectURL r path = .ok "") →
      nfr ctx bs.driver path desc.Size = .ok br →
      Event.HeaderSet "ETag" ("\"" ++ desc.Digest ++ "\"") ∈
          (ServeBlob lib nfr bs ctx w r dgst).trace ∧
        Event.ServeContent (ServeBlob lib nfr bs ctx w r dgst).header r desc.Digest
          Time.zeroValue br ∈ (ServeBlob lib nfr bs ctx w r dgst).trace) := by
  have forms := trace_forms lib nfr bs ctx w r dgst desc hstat
  refine ⟨?_, ?_, ?_, ?_, ?_, ?_, ?_, ?_, ?_, ?_⟩
  · intro d hmem
    rcases forms _ hmem with h | h | ⟨path, hpath, h | ⟨u, h⟩ | h | ⟨br, hopen, h | h | h⟩⟩
    · cases h
    · injection h
    · cases h
    · cases h
    · cases h
    · exact absurd rfl ((directSets_props w desc _ h).2.2.2.1 d)
    · cases h
    · cases h
  · intro q p hmem
    rcases forms _ hmem with h | h | ⟨path, hpath, h | ⟨u, h⟩ | h | ⟨br, hopen, h | h | h⟩⟩
    · cases h
    · cases h
    · injection h with _ hp
      rw [hp]
      exact hpath
    · cases h
    · cases h
    · exact absurd rfl ((directSets_props w desc _ h).2.2.2.2.1 q p)
    · cases h
    · cases h
  · intro c p s hmem
    rcases forms _ hmem with h | h | ⟨path, hpath, h | ⟨u, h⟩ | h | ⟨br, hopen, h | h | h⟩⟩
    · cases h
    · cases h
    · cases h
    · cases h
    · injection h with _ hp hs
      rw [hp, hs]
      exact ⟨hpath, rfl⟩
    · exact absurd rfl ((directSets_props w desc _ h).2.2.1 c p s)
    · cases h
    · cases h
  · intro v hmem
    rcases forms _ hmem with h | h | ⟨path, hpath, h | ⟨u, h⟩ | h | ⟨br, hopen, h | h | h⟩⟩
    · cases h
    · cases h
    · cases h
    · cases h
    · cases h
    · rcases mem_directSets w desc _ h with h2 | h2 | ⟨h2, _⟩ | ⟨h2, _⟩ | ⟨h2, _⟩
      · injection h2
      · injection h2 with hk _
        exact absurd hk (by decide)
      · injection h2 with hk _
        exact absurd hk (by decide)
      · injection h2 with hk _
        exact absurd hk (by decide)
      · injection h2 with hk _
        exact absurd hk (by decide)
    · cases h
    · cases h
  · intro v hmem
    rcases forms _ hmem with h | h | ⟨path, hpath, h | ⟨u, h⟩ | h | ⟨br, hopen, h | h | h⟩⟩
    · cases h
    · cases h
    · cases h
    · cases h
    · cases h
    · rcases mem_directSets w desc _ h with h2 | h2 | ⟨h2, _⟩ | ⟨h2, _⟩ | ⟨h2, _⟩
      · injection h2 with hk _
        exact absurd hk (by decide)
      · injection h2 with hk _
        exact absurd hk (by decide)
      · injection h2
      · injection h2 with hk _
        exact absurd hk (by decide)
      · injection h2 with hk _
        exact absurd hk (by decide)
    · cases h
    · cases h
  · intro hd q n t b hmem
    rcases forms _ hmem with h | h | ⟨path, hpath, h | ⟨u, h⟩ | h | ⟨br, hopen, h | h | h⟩⟩
    · cases h
    · cases h
    · cases h
    · cases h
    · cases h
    · have hsc := (directSets_props w desc _ h).2.1
      simp [Event.isServeContent] at hsc
    · injection h with hh _ hn _ _
      rw [hh, hn]
      refine ⟨rfl, directHeader_ETag w desc, ?_⟩
      intro hk
      rw [directHeader_DockerContentDigest, if_pos hk]
    · cases h
  · rcases ServeBlob_cases lib nfr bs ctx w r dgst with
      ⟨e1, hstat1, hout⟩ | ⟨desc1, hstat1, hrest⟩
    · rw [hstat] at hstat1
      cases hstat1
    · rw [hstat] at hstat1
      cases hstat1
      rcases hrest with ⟨e1, hpath, hout⟩ | ⟨path, hpath,
          ⟨e1, hflag, hurl, hout⟩ | ⟨u, hflag, hurl, hu, hout⟩ |
          ⟨hdecl, ⟨e1, hopen, hout⟩ | ⟨br, hopen, hout⟩⟩⟩ <;> rw [hout] <;>
        simp [preamble]
  · intro path hpath hflag
    cases hurl : bs.driver.RedirectURL r path with
    | error e =>
      rw [ServeBlob_of_redirect_error lib nfr bs ctx w r dgst desc path e hstat hpath hflag hurl]
      simp
    | ok u =>
      by_cases hu : u = ""
      · subst hu
        cases hopen : nfr ctx bs.driver path desc.Size with
        | error e =>
          rw [ServeBlob_of_reader_error lib nfr bs ctx w r dgst desc path e hstat hpath
            (Or.inr hurl) hopen]
          simp [preamble, hflag]
        | ok br =>
          rw [ServeBlob_of_direct lib nfr bs ctx w r dgst desc path br hstat hpath
            (Or.inr hurl) hopen]
          simp [preamble, hflag]
      · rw [ServeBlob_of_redirect_url lib nfr bs ctx w r dgst desc path u hstat hpath hflag hurl hu]
        simp
  · intro path hpath hdecl
    cases hopen : nfr ctx bs.driver path desc.Size with
    | error e =>
      rw [ServeBlob_of_reader_error lib nfr bs ctx w r dgst desc path e hstat hpath hdecl hopen]
      simp
    | ok br =>
      rw [ServeBlob_of_direct lib nfr bs ctx w r dgst desc path br hstat hpath hdecl hopen]
      simp
  · intro path br hpath hdecl hopen
    rw [ServeBlob_of_direct lib nfr bs ctx w r dgst desc path br hstat hpath hdecl hopen]
    simp [directSets_eq]

theorem ServeBlob_uses_descriptor_digest_witness :
    (∀ d, Event.pathFn d ∈
        (ServeBlob sampleHTTP sampleReader aliasServer sampleCtx [] sampleRequest "sha256:other").trace →
      d = "sha256:abc") ∧
      Event.pathFn "sha256:abc" ∈
        (ServeBlob sampleHTTP sampleReader aliasServer sampleCtx [] sampleRequest "sha256:other").trace :=
  have h := ServeBlob_uses_descriptor_digest sampleHTTP sampleReader aliasServer sampleCtx []
    sampleRequest "sha256:other" sampleDesc (by decide)
  ⟨h.1, h.2.2.2.2.2.2.1⟩

/-! ## Release of the reader -/

/-- C10: on every execution in which the reader open succeeds the trace ends
with `http.ServeContent` on that reader followed by its `Close`, nothing before
them being a `Close` or a responder call, so the reader is closed exactly once,
after the responder and as the last act before returning; an execution that
returns an error or issues a redirect has opened no reader and calls no
`Close`; no `Close` is ever called unless a reader was opened; and a reader
that was opened is always closed. -/
theorem ServeBlob_reader_release (lib : NetHTTP) (nfr : NewFileReader) (bs : blobServer)
    (ctx : Context) (w : Header) (r : Request) (dgst : Digest) :
    (∀ desc path br, bs.statter.Stat ctx dgst = .ok desc → bs.pathFn desc.Digest = .ok path →
      (bs.redirect = false ∨ bs.driver.RedirectURL r path = .ok "") →
      nfr ctx bs.driver path desc.Size = .ok br →
      (∃ pre, (ServeBlob lib nfr bs ctx w r dgst).trace =
          pre ++ [Event.ServeContent (ServeBlob lib nfr bs ctx w r dgst).header r desc.Digest
            Time.zeroValue br, Event.Close br] ∧
        ∀ ev ∈ pre, ev.isClose = false ∧ ev.isServeContent = false) ∧
      (ServeBlob lib nfr bs ctx w r dgst).trace.countP Event.isClose = 1) ∧
    (∀ e, (ServeBlob lib nfr bs ctx w r dgst).err = some e →
      (∀ ev ∈ (ServeBlob lib nfr bs ctx w r dgst).trace, ev.isClose = false) ∧
        ∀ c p s, Event.newFileReader c p s ∈ (ServeBlob lib nfr bs ctx w r dgst).trace →
          ∀ br, nfr c bs.driver p s ≠ .ok br) ∧
    (∀ h q u c, Event.Redirect h q u c ∈ (ServeBlob lib nfr bs ctx w r dgst).trace →
      (∀ ev ∈ (ServeBlob lib nfr bs ctx w r dgst).trace, ev.isClose = false) ∧
        ∀ c p s, Event.newFileReader c p s ∈ (ServeBlob lib nfr bs ctx w r dgst).trace →
          ∀ br, nfr c bs.driver p s ≠ .ok br) ∧
    ((∀ c p s, Event.newFileReader c p s ∈ (ServeBlob lib nfr bs ctx w r dgst).trace →
        ∀ br, nfr c bs.driver p s ≠ .ok br) →
      ∀ ev ∈ (ServeBlob lib nfr bs ctx w r dgst).trace, ev.isClose = false) ∧
    (∀ c p s br, Event.newFileReader c p s ∈ (ServeBlob lib nfr bs ctx w r dgst).trace →
      nfr c bs.driver p s = .ok br →
      Event.Close br ∈ (ServeBlob lib nfr bs ctx w r dgst).trace) := by
  have hpre : ∀ desc path, ∀ ev ∈ preamble bs ctx r dgst desc path ++
      [Event.newFileReader ctx path desc.Size] ++ directSets w desc,
      ev.isClose = false ∧ ev.isServeContent = false := by
    intro desc path ev hev
    simp only [List.mem_append, List.mem_singleton] at hev
    rcases hev with (h | h) | h
    · have hp := preamble_no_emit bs ctx r dgst desc path ev h
      exact ⟨hp.2.1, hp.2.2.1⟩
    · subst h
      exact ⟨rfl, rfl⟩
    · have hp := directSets_props w desc ev h
      exact ⟨hp.1, hp.2.1⟩
  refine ⟨?_, ?_, ?_, ?_, ?_⟩
  · intro desc path br hstat hpath hdecl hopen
    rw [ServeBlob_of_direct lib nfr bs ctx w r dgst desc path br hstat hpath hdecl hopen]
    simp only []
    constructor
    · exact ⟨_, rfl, hpre desc path⟩
    · have hzero : List.countP Event.isClose (preamble bs ctx r dgst desc path ++
          [Event.newFileReader ctx path desc.Size] ++ directSets w desc) = 0 := by
        rw [List.countP_eq_zero]
        intro ev hev
        simp [(hpre desc path ev hev).1]
      rw [List.countP_append, hzero]
      simp [List.countP_cons, Event.isClose]
  · intro e herr
    rcases release_dichotomy lib nfr bs ctx w r dgst with
      ⟨desc, path, br, _, _, _, _, hout⟩ | hno
    · rw [hout] at herr
      simp at herr
    · exact hno
  · intro h q u c hmem
    rcases release_dichotomy lib nfr bs ctx w r dgst with
      ⟨desc, path, br, hstat, hpath, hdecl, hopen, hout⟩ | hno
    · rw [hout] at hmem
      rcases mem_direct_trace bs ctx w r dgst desc path br _ hmem with h1 | h1 | h1 | h1 | h1
      · rcases mem_preamble bs ctx r dgst desc path _ h1 with h2 | h2 | ⟨h2, _⟩ <;> cases h2
      · cases h1
      · exact absurd rfl ((directSets_props w desc _ h1).2.2.2.2.2 h q u c)
      · cases h1
      · cases h1
    · exact hno
  · intro hnone
    rcases release_dichotomy lib nfr bs ctx w r dgst with
      ⟨desc, path, br, hstat, hpath, hdecl, hopen, hout⟩ | hno
    · have hmem : Event.newFileReader ctx path desc.Size ∈
          (ServeBlob lib nfr bs ctx w r dgst).trace := by
        rw [hout]
        simp
      exact absurd hopen (hnone ctx path desc.Size hmem br)
    · exact hno.1
  · intro c p s br hmem hbr
    rcases release_dichotomy lib nfr bs ctx w r dgst with
      ⟨desc, path, br1, hstat, hpath, hdecl, hopen, hout⟩ | hno
    · rw [hout] at hmem ⊢
      rcases mem_direct_trace bs ctx w r dgst desc path br1 _ hmem with h1 | h1 | h1 | h1 | h1
      · exact absurd rfl ((preamble_no_emit bs ctx r dgst desc path _ h1).2.2.2 c p s)
      · injection h1 with hc hp hs
        rw [hc, hp, hs, hopen] at hbr
        injection hbr with hb
        rw [← hb]
        simp
      · exact absurd rfl ((directSets_props w desc _ h1).2.2.1 c p s)
      · cases h1
      · cases h1
    · exact absurd hbr (hno.2 c p s hmem br)

theorem ServeBlob_reader_release_witness :
    (∃ pre, (ServeBlob sampleHTTP sampleReader directServer sampleCtx [] sampleRequest "sha256:abc").trace =
        pre ++ [Event.ServeContent
          (ServeBlob sampleHTTP sampleReader directServer sampleCtx [] sampleRequest "sha256:abc").header
          sampleRequest "sha256:abc" Time.zeroValue ⟨7⟩, Event.Close ⟨7⟩] ∧
      ∀ ev ∈ pre, ev.isClose = false ∧ ev.isServeContent = false) ∧
    (ServeBlob sampleHTTP sampleReader directServer sampleCtx [] sampleRequest "sha256:abc").trace.countP
      Event.isClose = 1 :=
  (ServeBlob_reader_release sampleHTTP sampleReader directServer sampleCtx [] sampleRequest
    "sha256:abc").1 sampleDesc "/blobs/sha256:abc/data" ⟨7⟩ (by decide) (by decide) (Or.inl rfl)
    (by decide)

end storage
